import Mathlib

/-!
Verification development for `src/Ensemble/KA_stacking.py` (Kaggle_Buddy).

The file shallowly embeds the class `ka_stacking_generalization` and its three
stacking operations `run_lgbm_stacker`, `run_xgboost_stacker` and
`run_other_stackers`.

Modelling conventions:
* numpy 1-D float arrays are `List ℚ`; a feature row is `Row := List ℚ`.
* numpy 2-D arrays are stored column-major (`Mat := List (List ℚ)`, a list of
  columns), because every 2-D access in the source is a whole-column read or
  write (`S[:, i]`, `S[val_index, i]`, `.sum(axis=1)`, `.mean(1)`).
* a numpy 1-D array that carries a dtype (the target vector `y`, and
  `np.zeros_like(y)`) is `NArr`: a dtype tag plus the values as rationals.
  Assigning a float into an integer-dtype array truncates toward zero
  (C casting), modelled by `castD`.
* fallible steps (out-of-range fancy indexing, shape-mismatched assignment,
  model `fit`/`predict` raising) live in `Except PyErr`.
* the boosting backends (`lightgbm.train` / `xgboost.train` plus the trained
  booster's `predict`) are external libraries, abstracted as a parameter of
  type `BoostParams`: the hyperparameter mapping together with the backend's
  deterministic training function, returning a row-predictor.
* sklearn-style base models are deterministic objects: `fit` records the data
  it was given (fully overwriting any previous fit, which is what the code
  relies on when reusing one instance across folds) and `predict` is a pure
  function of the recorded fit data and the query row.
* `tick_tock` (from `..Utils.KA_utils`, a scoped timer used only for
  diagnostic printing) has no effect on the returned values and is dropped.
* numpy length-1 broadcasting on assignment is not modelled (no claim
  exercises it): an assignment with mismatched lengths is a broadcast error.
-/

deriving instance DecidableEq for Except

namespace KAStacking

/-- A feature row (one row of `X_train` / `X_test` after `.values`). -/
abbrev Row := List ℚ

/-- A 2-D numpy float array, stored as a list of its columns. -/
abbrev Mat := List (List ℚ)

/-- The dtype of a numpy array: float or integer. -/
inductive Dtype where
  | float
  | int
deriving DecidableEq

/-- Truncation toward zero, the C-cast numpy applies when a float value is
stored into an integer-dtype array. -/
def ratTrunc (q : ℚ) : ℚ :=
  if 0 ≤ q then (⌊q⌋ : ℚ) else (⌈q⌉ : ℚ)

/-- Store-cast for a value written into an array of the given dtype. -/
def castD : Dtype → ℚ → ℚ
  | Dtype.float, q => q
  | Dtype.int, q => ratTrunc q

/-- A 1-D numpy array with a dtype tag (values kept as rationals). -/
structure NArr where
  dtype : Dtype
  data : List ℚ
deriving DecidableEq

/-- Errors the embedded code can raise: numpy IndexError on bad fancy
indexing, numpy broadcast ValueError on shape-mismatched assignment,
sklearn NotFittedError, and arbitrary errors raised by a model's
fit/predict (tagged by a code). -/
inductive PyErr where
  | indexError
  | broadcastError
  | notFitted
  | user (code : ℕ)
deriving DecidableEq

/-- Effectful map over a list in the `Except PyErr` monad (predicting a
vector row by row, reading a fancy index element by element). -/
def mapE (f : α → Except PyErr β) : List α → Except PyErr (List β)
  | [] => Except.ok []
  | x :: xs =>
    match f x with
    | Except.error e => Except.error e
    | Except.ok y =>
      match mapE f xs with
      | Except.error e => Except.error e
      | Except.ok ys => Except.ok (y :: ys)

/-- numpy fancy read `c[idx]`: out-of-range indices raise IndexError. -/
def getAtIdx (c : List α) (idx : List ℕ) : Except PyErr (List α) :=
  mapE (fun i => if h : i < c.length then Except.ok (c.get ⟨i, h⟩) else Except.error PyErr.indexError) idx

/-- numpy fancy write `c[idx] = v`, pairwise; with duplicate indices the last
write wins, as in numpy. Mismatched lengths raise a broadcast error,
out-of-range indices an IndexError. -/
def setAtIdx (c : List ℚ) : List ℕ → List ℚ → Except PyErr (List ℚ)
  | [], [] => Except.ok c
  | i :: is, v :: vs =>
    if i < c.length then setAtIdx (c.set i v) is vs else Except.error PyErr.indexError
  | [], _ :: _ => Except.error PyErr.broadcastError
  | _ :: _, [] => Except.error PyErr.broadcastError

/-- `np.zeros((nrows, ncols))`, column-major. -/
def zerosMat (nrows ncols : ℕ) : Mat :=
  List.replicate ncols (List.replicate nrows 0)

/-- `np.zeros_like(a)`: zeros with the same length and the same dtype. -/
def zeros_like (a : NArr) : NArr :=
  ⟨a.dtype, List.replicate a.data.length 0⟩

/-- Fancy write into an `NArr`: values are cast to the array's dtype on
store (`a[idx] = v`). -/
def narrSetAtIdx (a : NArr) (idx : List ℕ) (v : List ℚ) : Except PyErr NArr :=
  match setAtIdx a.data idx (v.map (castD a.dtype)) with
  | Except.ok d => Except.ok ⟨a.dtype, d⟩
  | Except.error e => Except.error e

/-- Whole-column write `M[:, i] = v`. -/
def setColE (M : Mat) (i : ℕ) (v : List ℚ) : Except PyErr Mat :=
  if h : i < M.length then
    if v.length = (M.get ⟨i, h⟩).length then Except.ok (M.set i v)
    else Except.error PyErr.broadcastError
  else Except.error PyErr.indexError

/-- Fancy write into one column, `M[idx, i] = v`. -/
def setColAtIdx (M : Mat) (i : ℕ) (idx : List ℕ) (v : List ℚ) : Except PyErr Mat :=
  if h : i < M.length then
    match setAtIdx (M.get ⟨i, h⟩) idx v with
    | Except.ok c => Except.ok (M.set i c)
    | Except.error e => Except.error e
  else Except.error PyErr.indexError

/-- Read entry `(p, i)` of a column-major matrix (row `p`, column `i`),
defaulting to `0` out of range. -/
def colAt (M : Mat) (i p : ℕ) : ℚ :=
  (M.getD i []).getD p 0

/-- Row sums `M.sum(axis=1)` of a column-major matrix whose columns have
`nrows` entries. -/
def sumCols (M : Mat) (nrows : ℕ) : List ℚ :=
  M.foldl (fun acc c => acc.zipWith (· + ·) c) (List.replicate nrows 0)

/-- Row means `M.mean(1)` of a column-major matrix. -/
def matMean1 (M : Mat) (nrows : ℕ) : List ℚ :=
  (sumCols M nrows).map (fun x => x / (M.length : ℚ))

/-- The fold-partition object `kf_n`: the (train-indices, validation-indices)
pairs its iteration yields, and its declared `n_folds` attribute. For the
legacy sklearn `KFold`, `len(kf)` returns `n_folds`. -/
structure KFold where
  folds : List (List ℕ × List ℕ)
  n_folds : ℕ
deriving DecidableEq

/-- `len(kf)` for the legacy sklearn `KFold` object. -/
def KFold.len (kf : KFold) : ℕ := kf.n_folds

/-- The orchestrator object `ka_stacking_generalization`: the fields stored
by `__init__` (feature frames after `.values`, the target array, the fold
partition, and the verbosity flag). -/
structure Stacker where
  X_train : List Row
  X_test : List Row
  y : NArr
  kf_n : KFold
  verbose : ℕ

/-- `ka_stacking_generalization.__init__` (the `.values` conversions are the
identity in this model). -/
def ka_stacking_generalization (X_train X_test : List Row) (y : NArr)
    (kf_n : KFold) (verbose : ℕ) : Stacker :=
  ⟨X_train, X_test, y, kf_n, verbose⟩

/-- A trained booster: predicts one value per query row. -/
abbrev Booster := Row → Except PyErr ℚ

/-- The boosting backend boundary: hyperparameters together with the
backend's `train(params, dataset(X, y), num_boost_round)` call, producing a
trained booster. Deterministic: a function of the fold data and round
count. -/
abbrev BoostParams := List Row → List ℚ → ℕ → Except PyErr Booster

/-- Predict a whole dataset with a trained booster. -/
def boosterPredict (b : Booster) (xs : List Row) : Except PyErr (List ℚ) :=
  mapE b xs

/-- A deterministic sklearn-style base model: `fitF` may raise on given fit
data; `predictF` is a pure function of the recorded fit data and the query
row; `fitted` is the internal state left behind by the last `fit` call
(fitting fully overwrites it). -/
structure BaseModel where
  fitF : List Row → List ℚ → Except PyErr Unit
  predictF : List Row → List ℚ → Row → Except PyErr ℚ
  fitted : Option (List Row × List ℚ)

/-- `model.fit(X, y)`: on success the model's state becomes the new fit
data. -/
def BaseModel.fit (m : BaseModel) (X : List Row) (y : List ℚ) :
    Except PyErr BaseModel :=
  match m.fitF X y with
  | Except.ok _ => Except.ok { m with fitted := some (X, y) }
  | Except.error e => Except.error e

/-- `model.predict` on a single row. -/
def BaseModel.predictRow (m : BaseModel) (x : Row) : Except PyErr ℚ :=
  match m.fitted with
  | none => Except.error PyErr.notFitted
  | some (X, y) => m.predictF X y x

/-- `model.predict(X)` on a dataset. -/
def BaseModel.predict (m : BaseModel) (xs : List Row) : Except PyErr (List ℚ) :=
  mapE m.predictRow xs

/-! ### The boosting stackers

`run_lgbm_stacker` and `run_xgboost_stacker` are line-for-line identical in
the source except for the backend library calls (`lightgbm.Dataset` /
`lightgbm.train` versus `xgboost.DMatrix` / `xgboost.train`), which are
abstracted into the `BoostParams` argument; the two methods therefore share
one fold loop here, and `run_xgboost_stacker` has the same body as
`run_lgbm_stacker`. -/

/-- Body of one iteration of the fold loop of the boosting stackers:

    X_train_cv, X_val_cv = self.X_train[train_index], self.X_train[val_index]
    y_train_cv = self.y[train_index]
    model_fold = <backend>.train(params, dtrain=<dataset>, num_boost_round=...)
    S_train[val_index] = model_fold.predict(d_val_fold)
    S_test_i[:, i] = model_fold.predict(d_test)
-/
def boost_fold_body (X_train X_test : List Row) (ydata : List ℚ)
    (params : BoostParams) (num_boost_round : ℕ) (i : ℕ)
    (tv : List ℕ × List ℕ) (S_train : NArr) (S_test_i : Mat) :
    Except PyErr (NArr × Mat) :=
  match getAtIdx X_train tv.1 with
  | Except.error e => Except.error e
  | Except.ok X_train_cv =>
    match getAtIdx X_train tv.2 with
    | Except.error e => Except.error e
    | Except.ok X_val_cv =>
      match getAtIdx ydata tv.1 with
      | Except.error e => Except.error e
      | Except.ok y_train_cv =>
        match params X_train_cv y_train_cv num_boost_round with
        | Except.error e => Except.error e
        | Except.ok model_fold =>
          match boosterPredict model_fold X_val_cv with
          | Except.error e => Except.error e
          | Except.ok val_pred =>
            match narrSetAtIdx S_train tv.2 val_pred with
            | Except.error e => Except.error e
            | Except.ok S_train_next =>
              match boosterPredict model_fold X_test with
              | Except.error e => Except.error e
              | Except.ok test_pred =>
                match setColE S_test_i i test_pred with
                | Except.error e => Except.error e
                | Except.ok S_test_i_next => Except.ok (S_train_next, S_test_i_next)

/-- The fold loop `for i, (train_index, val_index) in enumerate(self.kf_n)`
of the boosting stackers, threading `S_train` and `S_test_i`. -/
def boost_fold_loop (X_train X_test : List Row) (ydata : List ℚ)
    (params : BoostParams) (num_boost_round : ℕ) :
    ℕ → List (List ℕ × List ℕ) → NArr → Mat → Except PyErr (NArr × Mat)
  | _, [], S_train, S_test_i => Except.ok (S_train, S_test_i)
  | i, tv :: rest, S_train, S_test_i =>
    match boost_fold_body X_train X_test ydata params num_boost_round i tv S_train S_test_i with
    | Except.error e => Except.error e
    | Except.ok (S_train_next, S_test_i_next) =>
      boost_fold_loop X_train X_test ydata params num_boost_round (i + 1) rest S_train_next S_test_i_next

/-- `ka_stacking_generalization.run_lgbm_stacker`. Note the source allocates
`S_test_i = np.zeros((self.y.shape[0], n_folds))` — training-row count, not
test-row count — and finally returns
`S_test = S_test_i.sum(axis=1) / n_folds` using the declared `n_folds`
attribute. -/
def run_lgbm_stacker (s : Stacker) (lgbm_params : BoostParams)
    (num_boost_round : ℕ) : Except PyErr (NArr × List ℚ) :=
  match boost_fold_loop s.X_train s.X_test s.y.data lgbm_params num_boost_round 0
      s.kf_n.folds (zeros_like s.y) (zerosMat s.y.data.length s.kf_n.n_folds) with
  | Except.error e => Except.error e
  | Except.ok (S_train, S_test_i) =>
    Except.ok (S_train, (sumCols S_test_i s.y.data.length).map (fun x => x / (s.kf_n.n_folds : ℚ)))

/-- `ka_stacking_generalization.run_xgboost_stacker`: identical to
`run_lgbm_stacker` up to the abstracted backend. -/
def run_xgboost_stacker (s : Stacker) (xgb_params : BoostParams)
    (num_boost_round : ℕ) : Except PyErr (NArr × List ℚ) :=
  match boost_fold_loop s.X_train s.X_test s.y.data xgb_params num_boost_round 0
      s.kf_n.folds (zeros_like s.y) (zerosMat s.y.data.length s.kf_n.n_folds) with
  | Except.error e => Except.error e
  | Except.ok (S_train, S_test_i) =>
    Except.ok (S_train, (sumCols S_test_i s.y.data.length).map (fun x => x / (s.kf_n.n_folds : ℚ)))

/-! ### The generic stacker -/

/-- Body of one iteration of the inner fold loop of `run_other_stackers`:

    model.fit(X_train_cv, y_train_cv)
    y_pred = model.predict(X_val_cv)[:]
    S_train[val_index, i] = y_pred
    S_test_i[:, j] = model.predict(self.X_test)[:]
-/
def other_fold_body (X_train X_test : List Row) (ydata : List ℚ) (i j : ℕ)
    (tv : List ℕ × List ℕ) (m : BaseModel) (S_train S_test_i : Mat) :
    Except PyErr (BaseModel × Mat × Mat) :=
  match getAtIdx X_train tv.1 with
  | Except.error e => Except.error e
  | Except.ok X_train_cv =>
    match getAtIdx X_train tv.2 with
    | Except.error e => Except.error e
    | Except.ok X_val_cv =>
      match getAtIdx ydata tv.1 with
      | Except.error e => Except.error e
      | Except.ok y_train_cv =>
        match m.fit X_train_cv y_train_cv with
        | Except.error e => Except.error e
        | Except.ok m_fitted =>
          match m_fitted.predict X_val_cv with
          | Except.error e => Except.error e
          | Except.ok y_pred =>
            match setColAtIdx S_train i tv.2 y_pred with
            | Except.error e => Except.error e
            | Except.ok S_train_next =>
              match m_fitted.predict X_test with
              | Except.error e => Except.error e
              | Except.ok test_pred =>
                match setColE S_test_i j test_pred with
                | Except.error e => Except.error e
                | Except.ok S_test_i_next => Except.ok (m_fitted, S_train_next, S_test_i_next)

/-- The inner loop `for j, (train_index, val_index) in enumerate(self.kf_n)`
of `run_other_stackers` for the model at position `i`, threading the
(mutated) model, `S_train` and `S_test_i`. -/
def other_fold_loop (X_train X_test : List Row) (ydata : List ℚ) (i : ℕ) :
    ℕ → List (List ℕ × List ℕ) → BaseModel → Mat → Mat →
    Except PyErr (BaseModel × Mat × Mat)
  | _, [], m, S_train, S_test_i => Except.ok (m, S_train, S_test_i)
  | j, tv :: rest, m, S_train, S_test_i =>
    match other_fold_body X_train X_test ydata i j tv m S_train S_test_i with
    | Except.error e => Except.error e
    | Except.ok (m_next, S_train_next, S_test_i_next) =>
      other_fold_loop X_train X_test ydata i (j + 1) rest m_next S_train_next S_test_i_next

/-- The outer loop `for i, model in enumerate(base_models)` of
`run_other_stackers`. For each model it allocates
`S_test_i = np.zeros((self.X_test.shape[0], len(self.kf_n)))`, runs the fold
loop, and writes `S_test[:, i] = S_test_i.mean(1)`. It also returns the list
of (mutated) base models to make the call's effect on its arguments
explicit. -/
def other_model_loop (X_train X_test : List Row) (ydata : List ℚ) (kf : KFold) :
    ℕ → List BaseModel → Mat → Mat →
    Except PyErr (List BaseModel × Mat × Mat)
  | _, [], S_train, S_test => Except.ok ([], S_train, S_test)
  | i, m :: rest, S_train, S_test =>
    match other_fold_loop X_train X_test ydata i 0 kf.folds m S_train
        (zerosMat X_test.length kf.len) with
    | Except.error e => Except.error e
    | Except.ok (m_after, S_train_next, S_test_i) =>
      match setColE S_test i (matMean1 S_test_i X_test.length) with
      | Except.error e => Except.error e
      | Except.ok S_test_next =>
        match other_model_loop X_train X_test ydata kf (i + 1) rest S_train_next S_test_next with
        | Except.error e => Except.error e
        | Except.ok (rest_after, S_train_fin, S_test_fin) =>
          Except.ok (m_after :: rest_after, S_train_fin, S_test_fin)

/-- `ka_stacking_generalization.run_other_stackers`, including the final
state of the caller-supplied (mutated in place) base models. -/
def run_other_stackers_full (s : Stacker) (base_models : List BaseModel) :
    Except PyErr (List BaseModel × Mat × Mat) :=
  other_model_loop s.X_train s.X_test s.y.data s.kf_n 0 base_models
    (zerosMat s.X_train.length base_models.length)
    (zerosMat s.X_test.length base_models.length)

/-- `ka_stacking_generalization.run_other_stackers`: the `(S_train, S_test)`
pair returned to the caller. -/
def run_other_stackers (s : Stacker) (base_models : List BaseModel) :
    Except PyErr (Mat × Mat) :=
  match run_other_stackers_full s base_models with
  | Except.error e => Except.error e
  | Except.ok (_, S_train, S_test) => Except.ok (S_train, S_test)

/-! ### Method views with explicit object state

A Python method call can reassign the fields of `self`; translating each
method in state-passing style, the post-call object is returned alongside
the result. None of the three method bodies assigns to a field of `self`,
so each post-call object is the pre-call object. -/

/-- `run_lgbm_stacker` as a state-passing method: result plus post-call
object state. -/
def run_lgbm_stacker_method (s : Stacker) (lgbm_params : BoostParams)
    (num_boost_round : ℕ) : Except PyErr (NArr × List ℚ) × Stacker :=
  (run_lgbm_stacker s lgbm_params num_boost_round, s)

/-- `run_xgboost_stacker` as a state-passing method. -/
def run_xgboost_stacker_method (s : Stacker) (xgb_params : BoostParams)
    (num_boost_round : ℕ) : Except PyErr (NArr × List ℚ) × Stacker :=
  (run_xgboost_stacker s xgb_params num_boost_round, s)

/-- `run_other_stackers` as a state-passing method. -/
def run_other_stackers_method (s : Stacker) (base_models : List BaseModel) :
    Except PyErr (Mat × Mat) × Stacker :=
  (run_other_stackers s base_models, s)

/-! ### Well-formed fold partitions and per-fold specification values -/

/-- A well-formed fold partition over `n` training rows: validation index
sets are pairwise disjoint, duplicate-free, within range, and cover every
training row (the spec's data-model invariant for Fold Partition). -/
def wellFormed (kf : KFold) (n : ℕ) : Prop :=
  List.Pairwise (fun f g => ∀ p ∈ f.2, p ∉ g.2) kf.folds ∧
  (∀ f ∈ kf.folds, ∀ p ∈ f.2, p < n) ∧
  (∀ p, p < n → ∃ f ∈ kf.folds, p ∈ f.2) ∧
  (∀ f ∈ kf.folds, f.2.Nodup)

instance (kf : KFold) (n : ℕ) : Decidable (wellFormed kf n) := by
  unfold wellFormed
  infer_instance

/-- The model `fit` on one fold's training slice, as used by the fold body
of the generic stacker. -/
def foldModel (X_train : List Row) (ydata : List ℚ) (m : BaseModel)
    (tv : List ℕ × List ℕ) : Except PyErr BaseModel :=
  match getAtIdx X_train tv.1 with
  | Except.error e => Except.error e
  | Except.ok X_train_cv =>
    match getAtIdx ydata tv.1 with
    | Except.error e => Except.error e
    | Except.ok y_train_cv => m.fit X_train_cv y_train_cv

/-- The out-of-fold value the generic stacker computes for training row `p`
from a given fold: fit on the fold's training slice, predict on training
row `p`. -/
def oofVal (X_train : List Row) (ydata : List ℚ) (m : BaseModel)
    (tv : List ℕ × List ℕ) (p : ℕ) : Except PyErr ℚ :=
  match foldModel X_train ydata m tv with
  | Except.error e => Except.error e
  | Except.ok m_fitted => m_fitted.predictRow (X_train.getD p [])

/-- The test-prediction vector the generic stacker computes from a given
fold: fit on the fold's training slice, predict on the full test set. -/
def foldTestPred (X_train X_test : List Row) (ydata : List ℚ) (m : BaseModel)
    (tv : List ℕ × List ℕ) : Except PyErr (List ℚ) :=
  match foldModel X_train ydata m tv with
  | Except.error e => Except.error e
  | Except.ok m_fitted => m_fitted.predict X_test

/-- The booster a boosting stacker trains on a given fold. -/
def boostFoldModel (X_train : List Row) (ydata : List ℚ) (params : BoostParams)
    (num_boost_round : ℕ) (tv : List ℕ × List ℕ) : Except PyErr Booster :=
  match getAtIdx X_train tv.1 with
  | Except.error e => Except.error e
  | Except.ok X_train_cv =>
    match getAtIdx ydata tv.1 with
    | Except.error e => Except.error e
    | Except.ok y_train_cv => params X_train_cv y_train_cv num_boost_round

/-- The raw (pre-storage) out-of-fold value a boosting stacker computes for
training row `p` from a given fold. -/
def boostOofVal (X_train : List Row) (ydata : List ℚ) (params : BoostParams)
    (num_boost_round : ℕ) (tv : List ℕ × List ℕ) (p : ℕ) : Except PyErr ℚ :=
  match boostFoldModel X_train ydata params num_boost_round tv with
  | Except.error e => Except.error e
  | Except.ok b => b (X_train.getD p [])

/-- The test-prediction vector a boosting stacker computes from a given
fold. -/
def boostFoldTestPred (X_train X_test : List Row) (ydata : List ℚ)
    (params : BoostParams) (num_boost_round : ℕ) (tv : List ℕ × List ℕ) :
    Except PyErr (List ℚ) :=
  match boostFoldModel X_train ydata params num_boost_round tv with
  | Except.error e => Except.error e
  | Except.ok b => boosterPredict b X_test

/-! ### Concrete instances used in counterexamples and witnesses -/

/-- A boosting backend whose trained booster always predicts the constant
`q`, whatever the fold data. -/
def constBoost (q : ℚ) : BoostParams :=
  fun _X _y _n => Except.ok (fun _r => Except.ok q)

/-- A base model that always predicts the constant `q`. -/
def constModel (q : ℚ) : BaseModel :=
  ⟨fun _ _ => Except.ok (), fun _X _y _r => Except.ok q, none⟩

/-- The spec scenario's base model: always predicts the mean of the targets
it was fit on. -/
def meanModel : BaseModel :=
  ⟨fun _ _ => Except.ok (), fun _X y _r => Except.ok (y.sum / (y.length : ℚ)), none⟩

/-- A base model whose `fit` raises `user 7` exactly when the training slice
is `[[5]]`. -/
def errFitModel : BaseModel :=
  ⟨fun X _ => if X = [[5]] then Except.error (PyErr.user 7) else Except.ok (),
   fun _X _y _r => Except.ok 0, none⟩

/-- A boosting backend whose `train` raises `user 7` exactly when the
training slice is `[[5]]`. -/
def errBoost : BoostParams :=
  fun X _ _ =>
    if X = [[5]] then Except.error (PyErr.user 7)
    else Except.ok (fun _r => Except.ok 0)

/-- Orchestrator with 3 training rows but only 2 test rows (the shape-bug
input for the boosting stackers). -/
def egShape : Stacker :=
  ka_stacking_generalization [[0], [1], [2]] [[0], [1]]
    ⟨Dtype.float, [0, 1, 2]⟩ ⟨[([0, 1, 2], [0, 1, 2])], 1⟩ 1

/-- Orchestrator whose partition yields a single (train, validation) pair
but declares `n_folds = 2`. -/
def egMismatch : Stacker :=
  ka_stacking_generalization [[1]] [[1]] ⟨Dtype.float, [0]⟩ ⟨[([0], [0])], 2⟩ 1

/-- The spec scenario's orchestrator: 10 training rows with the given
targets, 4 test rows, 2-fold partition with validation sets rows 0-4 and
rows 5-9. -/
def egScenario (y : List ℚ) : Stacker :=
  ka_stacking_generalization (List.replicate 10 [0]) (List.replicate 4 [0])
    ⟨Dtype.float, y⟩
    ⟨[([5, 6, 7, 8, 9], [0, 1, 2, 3, 4]), ([0, 1, 2, 3, 4], [5, 6, 7, 8, 9])], 2⟩ 1

/-- Orchestrator with an integer-dtype target vector. -/
def egIntTarget : Stacker :=
  ka_stacking_generalization [[0], [1]] [[0], [1]] ⟨Dtype.int, [0, 0]⟩
    ⟨[([0, 1], [0, 1])], 1⟩ 1

/-- A small well-formed two-fold orchestrator (2 training rows, 1 test
row, float targets). -/
def egTwoFold : Stacker :=
  ka_stacking_generalization [[0], [1]] [[0]] ⟨Dtype.float, [0, 0]⟩
    ⟨[([0], [1]), ([1], [0])], 2⟩ 1

/-- Orchestrator with a single degenerate fold: train-indices and
validation-indices are both all training rows. -/
def egSingleFold : Stacker :=
  ka_stacking_generalization [[0], [1]] [[0]] ⟨Dtype.float, [3, 4]⟩
    ⟨[([0, 1], [0, 1])], 1⟩ 1

/-- Orchestrator with two folds whose second training slice is `[[5]]`,
the slice on which `errFitModel` and `errBoost` raise. -/
def egErr : Stacker :=
  ka_stacking_generalization [[4], [5]] [[0], [1]] ⟨Dtype.float, [0, 0]⟩
    ⟨[([0], [1]), ([1], [0])], 2⟩ 1

/-! ### Basic lemmas about the array primitives -/

theorem getD_set_self {l : List α} {i : ℕ} {v d : α} (h : i < l.length) :
    (l.set i v).getD i d = v := by
  simp [List.getD_eq_getElem?_getD, List.getElem?_set_eq_of_lt v h]

theorem getD_set_ne {l : List α} {i n : ℕ} {v d : α} (h : i ≠ n) :
    (l.set i v).getD n d = l.getD n d := by
  simp [List.getD_eq_getElem?_getD, List.getElem?_set_ne h]

theorem getD_replicate_of_lt {n k : ℕ} {x d : α} (h : k < n) :
    (List.replicate n x).getD k d = x := by
  simp [List.getD_eq_getElem?_getD, List.getElem?_replicate, h]

theorem getD_replicate_zero (n p : ℕ) : (List.replicate n (0 : ℚ)).getD p 0 = 0 := by
  by_cases h : p < n
  · exact getD_replicate_of_lt h
  · rw [List.getD_eq_default]
    simpa using Nat.le_of_not_lt h

theorem mapE_ok_length {f : α → Except PyErr β} {xs : List α} {ys : List β}
    (h : mapE f xs = Except.ok ys) : ys.length = xs.length := by
  induction xs generalizing ys with
  | nil => simp only [mapE] at h; cases h; rfl
  | cons x xs ih =>
    simp only [mapE] at h
    cases hf : f x with
    | error e => rw [hf] at h; cases h
    | ok y =>
      rw [hf] at h
      cases hm : mapE f xs with
      | error e => rw [hm] at h; cases h
      | ok ys' =>
        rw [hm] at h
        cases h
        simp [ih hm]

theorem mapE_ok_get {f : α → Except PyErr β} {xs : List α} {ys : List β}
    (h : mapE f xs = Except.ok ys) (k : ℕ) (h1 : k < xs.length) (h2 : k < ys.length) :
    f (xs.get ⟨k, h1⟩) = Except.ok (ys.get ⟨k, h2⟩) := by
  induction xs generalizing ys k with
  | nil => exact absurd h1 (by simp)
  | cons x xs ih =>
    simp only [mapE] at h
    cases hf : f x with
    | error e => rw [hf] at h; cases h
    | ok y =>
      rw [hf] at h
      cases hm : mapE f xs with
      | error e => rw [hm] at h; cases h
      | ok ys' =>
        rw [hm] at h
        cases h
        cases k with
        | zero => simpa using hf
        | succ k => exact ih hm k (Nat.lt_of_succ_lt_succ h1) (Nat.lt_of_succ_lt_succ h2)

theorem getAtIdx_ok_length {c : List α} {idx : List ℕ} {out : List α}
    (h : getAtIdx c idx = Except.ok out) : out.length = idx.length :=
  mapE_ok_length h

theorem getAtIdx_ok_get {c : List α} {idx : List ℕ} {out : List α} {d : α}
    (h : getAtIdx c idx = Except.ok out) (k : ℕ) (h1 : k < idx.length)
    (h2 : k < out.length) :
    idx.get ⟨k, h1⟩ < c.length ∧ out.get ⟨k, h2⟩ = c.getD (idx.get ⟨k, h1⟩) d := by
  have := mapE_ok_get h k h1 h2
  by_cases hlt : idx.get ⟨k, h1⟩ < c.length
  · refine ⟨hlt, ?_⟩
    rw [dif_pos hlt] at this
    have h3 := Except.ok.inj this
    simp only [List.getD_eq_getElem?_getD, List.getElem?_eq_getElem hlt, Option.getD_some]
    rw [← h3]
    simp
  · rw [dif_neg hlt] at this
    cases this

theorem getAtIdx_range_self (c : List α) : getAtIdx c (List.range c.length) = Except.ok c := by
  induction c with
  | nil => rfl
  | cons x xs ih =>
    have hstep : List.range (x :: xs).length = 0 :: (List.range xs.length).map Nat.succ := by
      simp [List.range_succ_eq_map]
    rw [hstep]
    simp only [getAtIdx, mapE]
    rw [dif_pos (by simp)]
    have hmap : mapE (fun i => if h : i < (x :: xs).length then Except.ok ((x :: xs).get ⟨i, h⟩)
        else Except.error PyErr.indexError) ((List.range xs.length).map Nat.succ) =
        Except.ok xs := by
      have hgen : ∀ (l : List ℕ), (∀ i ∈ l, i < xs.length) →
          mapE (fun i => if h : i < (x :: xs).length then Except.ok ((x :: xs).get ⟨i, h⟩)
            else Except.error PyErr.indexError) (l.map Nat.succ) =
          mapE (fun i => if h : i < xs.length then Except.ok (xs.get ⟨i, h⟩)
            else Except.error PyErr.indexError) l := by
        intro l hl
        induction l with
        | nil => rfl
        | cons a as iha =>
          have ha : a < xs.length := hl a (by simp)
          simp only [List.map_cons, mapE]
          rw [dif_pos (by simpa using Nat.succ_lt_succ ha), dif_pos ha]
          rw [iha (fun i hi => hl i (by simp [hi]))]
          rfl
      rw [hgen (List.range xs.length) (fun i hi => List.mem_range.mp hi)]
      simpa [getAtIdx] using ih
    rw [hmap]
    rfl

theorem setAtIdx_ok_length {c : List ℚ} {idx : List ℕ} {v : List ℚ} {c' : List ℚ}
    (h : setAtIdx c idx v = Except.ok c') : c'.length = c.length := by
  induction idx generalizing c v with
  | nil =>
    cases v with
    | nil => simp only [setAtIdx] at h; cases h; rfl
    | cons y ys => simp only [setAtIdx] at h; cases h
  | cons i is ih =>
    cases v with
    | nil => simp only [setAtIdx] at h; cases h
    | cons y ys =>
      simp only [setAtIdx] at h
      by_cases hi : i < c.length
      · rw [if_pos hi] at h
        have := ih h
        simpa using this
      · rw [if_neg hi] at h; cases h

theorem setAtIdx_ok_mem_lt {c : List ℚ} {idx : List ℕ} {v : List ℚ} {c' : List ℚ}
    (h : setAtIdx c idx v = Except.ok c') : ∀ i ∈ idx, i < c.length := by
  induction idx generalizing c v with
  | nil => simp
  | cons i is ih =>
    cases v with
    | nil => simp only [setAtIdx] at h; cases h
    | cons y ys =>
      simp only [setAtIdx] at h
      by_cases hi : i < c.length
      · rw [if_pos hi] at h
        intro j hj
        rcases List.mem_cons.mp hj with hj | hj
        · exact hj ▸ hi
        · have := ih h j hj
          simpa using this
      · rw [if_neg hi] at h; cases h

theorem setAtIdx_ok_lengths {c : List ℚ} {idx : List ℕ} {v : List ℚ} {c' : List ℚ}
    (h : setAtIdx c idx v = Except.ok c') : v.length = idx.length := by
  induction idx generalizing c v with
  | nil =>
    cases v with
    | nil => rfl
    | cons y ys => simp only [setAtIdx] at h; cases h
  | cons i is ih =>
    cases v with
    | nil => simp only [setAtIdx] at h; cases h
    | cons y ys =>
      simp only [setAtIdx] at h
      by_cases hi : i < c.length
      · rw [if_pos hi] at h
        simp [ih h]
      · rw [if_neg hi] at h; cases h

theorem setAtIdx_ok_notMem {c : List ℚ} {idx : List ℕ} {v : List ℚ} {c' : List ℚ} {d : ℚ}
    (h : setAtIdx c idx v = Except.ok c') (p : ℕ) (hp : p ∉ idx) :
    c'.getD p d = c.getD p d := by
  induction idx generalizing c v with
  | nil =>
    cases v with
    | nil => simp only [setAtIdx] at h; cases h; rfl
    | cons y ys => simp only [setAtIdx] at h; cases h
  | cons i is ih =>
    cases v with
    | nil => simp only [setAtIdx] at h; cases h
    | cons y ys =>
      simp only [setAtIdx] at h
      by_cases hi : i < c.length
      · rw [if_pos hi] at h
        have hpi : p ∉ is := fun hmem => hp (List.mem_cons.mpr (Or.inr hmem))
        have hne : i ≠ p := fun he => hp (List.mem_cons.mpr (Or.inl he.symm))
        rw [ih h hpi, getD_set_ne hne]
      · rw [if_neg hi] at h; cases h

theorem setAtIdx_ok_nodup_get {c : List ℚ} {idx : List ℕ} {v : List ℚ} {c' : List ℚ}
    (h : setAtIdx c idx v = Except.ok c') (hnd : idx.Nodup) (k : ℕ)
    (h1 : k < idx.length) (h2 : k < v.length) :
    c'.getD (idx.get ⟨k, h1⟩) 0 = v.get ⟨k, h2⟩ := by
  induction idx generalizing c v k with
  | nil => exact absurd h1 (by simp)
  | cons i is ih =>
    cases v with
    | nil => simp only [setAtIdx] at h; cases h
    | cons y ys =>
      simp only [setAtIdx] at h
      by_cases hi : i < c.length
      · rw [if_pos hi] at h
        cases k with
        | zero =>
          have hni : i ∉ is := (List.nodup_cons.mp hnd).1
          have hkeep := setAtIdx_ok_notMem (d := (0 : ℚ)) h i hni
          exact hkeep.trans (getD_set_self hi)
        | succ k =>
          exact ih h (List.nodup_cons.mp hnd).2 k (Nat.lt_of_succ_lt_succ h1)
            (Nat.lt_of_succ_lt_succ h2)
      · rw [if_neg hi] at h; cases h

theorem setColE_ok_elim {M : Mat} {i : ℕ} {v : List ℚ} {M' : Mat}
    (h : setColE M i v = Except.ok M') :
    ∃ hi : i < M.length, v.length = (M.get ⟨i, hi⟩).length ∧ M' = M.set i v := by
  unfold setColE at h
  by_cases hi : i < M.length
  · rw [dif_pos hi] at h
    by_cases hv : v.length = (M.get ⟨i, hi⟩).length
    · rw [if_pos hv] at h
      exact ⟨hi, hv, (Except.ok.inj h).symm⟩
    · rw [if_neg hv] at h; cases h
  · rw [dif_neg hi] at h; cases h

theorem setColAtIdx_ok_elim {M : Mat} {i : ℕ} {idx : List ℕ} {v : List ℚ} {M' : Mat}
    (h : setColAtIdx M i idx v = Except.ok M') :
    ∃ (hi : i < M.length) (c' : List ℚ),
      setAtIdx (M.get ⟨i, hi⟩) idx v = Except.ok c' ∧ M' = M.set i c' := by
  unfold setColAtIdx at h
  by_cases hi : i < M.length
  · rw [dif_pos hi] at h
    cases hs : setAtIdx (M.get ⟨i, hi⟩) idx v with
    | error e => rw [hs] at h; cases h
    | ok c' =>
      rw [hs] at h
      exact ⟨hi, c', hs, (Except.ok.inj h).symm⟩
  · rw [dif_neg hi] at h; cases h

theorem getD_getElem {l : List α} {k : ℕ} {d : α} (h : k < l.length) :
    l.getD k d = l[k] := by
  simp [List.getD_eq_getElem?_getD, List.getElem?_eq_getElem h]

theorem colAt_set_self {M : Mat} {i : ℕ} {c : List ℚ} (p : ℕ) (h : i < M.length) :
    colAt (M.set i c) i p = c.getD p 0 := by
  unfold colAt
  rw [getD_set_self h]

theorem colAt_set_ne {M : Mat} {i j : ℕ} {c : List ℚ} (p : ℕ) (h : i ≠ j) :
    colAt (M.set i c) j p = colAt M j p := by
  unfold colAt
  rw [getD_set_ne h]

theorem colAt_zerosMat (nrows ncols i p : ℕ) : colAt (zerosMat nrows ncols) i p = 0 := by
  unfold colAt zerosMat
  by_cases hi : i < ncols
  · rw [getD_replicate_of_lt (by simpa using hi)]
    exact getD_replicate_zero nrows p
  · have houter : (List.replicate ncols (List.replicate nrows (0 : ℚ))).getD i [] = [] := by
      rw [List.getD_eq_default]
      simpa using Nat.le_of_not_lt hi
    rw [houter]
    simp

theorem getD_zipWith_add {a b : List ℚ} (r : ℕ) (h1 : r < a.length) (h2 : r < b.length) :
    (List.zipWith (· + ·) a b).getD r 0 = a.getD r 0 + b.getD r 0 := by
  induction a generalizing b r with
  | nil => exact absurd h1 (by simp)
  | cons x xs ih =>
    cases b with
    | nil => exact absurd h2 (by simp)
    | cons y ys =>
      cases r with
      | zero => simp
      | succ r =>
        simp only [List.zipWith_cons_cons, List.getD_cons_succ]
        exact ih r (Nat.lt_of_succ_lt_succ h1) (Nat.lt_of_succ_lt_succ h2)

theorem sumCols_foldl_length {M : Mat} {acc : List ℚ} {nrows : ℕ}
    (hacc : acc.length = nrows) (hM : ∀ c ∈ M, c.length = nrows) :
    (M.foldl (fun a c => a.zipWith (· + ·) c) acc).length = nrows := by
  induction M generalizing acc with
  | nil => simpa using hacc
  | cons c cs ih =>
    simp only [List.foldl_cons]
    exact ih (by simp [List.length_zipWith, hacc, hM c (by simp)])
      (fun c' hc' => hM c' (by simp [hc']))

theorem sumCols_foldl_getD {M : Mat} {acc : List ℚ} {nrows r : ℕ}
    (hacc : acc.length = nrows) (hM : ∀ c ∈ M, c.length = nrows) (hr : r < nrows) :
    (M.foldl (fun a c => a.zipWith (· + ·) c) acc).getD r 0 =
      acc.getD r 0 + (M.map (fun c => c.getD r 0)).sum := by
  induction M generalizing acc with
  | nil => simp
  | cons c cs ih =>
    simp only [List.foldl_cons, List.map_cons, List.sum_cons]
    rw [ih (by simp [List.length_zipWith, hacc, hM c (by simp)])
      (fun c' hc' => hM c' (by simp [hc']))]
    rw [getD_zipWith_add r (by rw [hacc]; exact hr) (by rw [hM c (by simp)]; exact hr)]
    ring

theorem sumCols_length {M : Mat} {nrows : ℕ} (hM : ∀ c ∈ M, c.length = nrows) :
    (sumCols M nrows).length = nrows :=
  sumCols_foldl_length (by simp) hM

theorem sumCols_getD {M : Mat} {nrows r : ℕ} (hM : ∀ c ∈ M, c.length = nrows)
    (hr : r < nrows) :
    (sumCols M nrows).getD r 0 = (M.map (fun c => c.getD r 0)).sum := by
  unfold sumCols
  rw [sumCols_foldl_getD (by simp) hM hr, getD_replicate_zero, zero_add]

theorem matMean1_getD {M : Mat} {nrows r : ℕ} (hM : ∀ c ∈ M, c.length = nrows)
    (hr : r < nrows) :
    (matMean1 M nrows).getD r 0 = (M.map (fun c => c.getD r 0)).sum / (M.length : ℚ) := by
  unfold matMean1
  have hlen : r < (sumCols M nrows).length := by rw [sumCols_length hM]; exact hr
  rw [List.getD_eq_getElem?_getD, List.getElem?_map, List.getElem?_eq_getElem hlen]
  simp only [Option.map_some', Option.getD_some]
  rw [← getD_getElem hlen, sumCols_getD hM hr]

/-! ### Characterization of the boosting fold loop -/

theorem narrSetAtIdx_ok_elim {a : NArr} {idx : List ℕ} {v : List ℚ} {a' : NArr}
    (h : narrSetAtIdx a idx v = Except.ok a') :
    a'.dtype = a.dtype ∧ setAtIdx a.data idx (v.map (castD a.dtype)) = Except.ok a'.data := by
  unfold narrSetAtIdx at h
  cases hs : setAtIdx a.data idx (v.map (castD a.dtype)) with
  | error e => rw [hs] at h; cases h
  | ok d =>
    rw [hs] at h
    cases h
    exact ⟨rfl, rfl⟩

theorem boost_body_ok_elim {Xtr Xte : List Row} {yd : List ℚ} {params : BoostParams}
    {nbr i : ℕ} {tv : List ℕ × List ℕ} {St : NArr} {Si : Mat} {out : NArr × Mat}
    (h : boost_fold_body Xtr Xte yd params nbr i tv St Si = Except.ok out) :
    ∃ Xc Xv yc b vp tp,
      getAtIdx Xtr tv.1 = Except.ok Xc ∧
      getAtIdx Xtr tv.2 = Except.ok Xv ∧
      getAtIdx yd tv.1 = Except.ok yc ∧
      params Xc yc nbr = Except.ok b ∧
      mapE b Xv = Except.ok vp ∧
      narrSetAtIdx St tv.2 vp = Except.ok out.1 ∧
      mapE b Xte = Except.ok tp ∧
      setColE Si i tp = Except.ok out.2 := by
  unfold boost_fold_body at h
  cases h1 : getAtIdx Xtr tv.1 with
  | error e => simp only [h1] at h; cases h
  | ok Xc =>
  simp only [h1] at h
  cases h2 : getAtIdx Xtr tv.2 with
  | error e => simp only [h2] at h; cases h
  | ok Xv =>
  simp only [h2] at h
  cases h3 : getAtIdx yd tv.1 with
  | error e => simp only [h3] at h; cases h
  | ok yc =>
  simp only [h3] at h
  cases h4 : params Xc yc nbr with
  | error e => simp only [h4] at h; cases h
  | ok b =>
  simp only [h4] at h
  cases h5 : boosterPredict b Xv with
  | error e => simp only [h5] at h; cases h
  | ok vp =>
  simp only [h5] at h
  cases h6 : narrSetAtIdx St tv.2 vp with
  | error e => simp only [h6] at h; cases h
  | ok St1 =>
  simp only [h6] at h
  cases h7 : boosterPredict b Xte with
  | error e => simp only [h7] at h; cases h
  | ok tp =>
  simp only [h7] at h
  cases h8 : setColE Si i tp with
  | error e => simp only [h8] at h; cases h
  | ok Si1 =>
  simp only [h8] at h
  cases h
  exact ⟨Xc, Xv, yc, b, vp, tp, rfl, rfl, rfl, h4, h5, h6, h7, h8⟩

theorem boost_loop_append (Xtr Xte : List Row) (yd : List ℚ) (params : BoostParams)
    (nbr : ℕ) (A B : List (List ℕ × List ℕ)) (i : ℕ) (St : NArr) (Si : Mat) :
    boost_fold_loop Xtr Xte yd params nbr i (A ++ B) St Si =
      match boost_fold_loop Xtr Xte yd params nbr i A St Si with
      | Except.error e => Except.error e
      | Except.ok (St', Si') => boost_fold_loop Xtr Xte yd params nbr (i + A.length) B St' Si' := by
  induction A generalizing i St Si with
  | nil => simp [boost_fold_loop]
  | cons tv rest ih =>
    simp only [List.cons_append, boost_fold_loop]
    cases hb : boost_fold_body Xtr Xte yd params nbr i tv St Si with
    | error e => rfl
    | ok p =>
      obtain ⟨St1, Si1⟩ := p
      simp only [List.append_eq]
      rw [ih]
      have harith : i + (rest.length + 1) = i + 1 + rest.length := by omega
      simp [harith]

theorem boost_loop_ok_cons {Xtr Xte : List Row} {yd : List ℚ} {params : BoostParams}
    {nbr i : ℕ} {tv : List ℕ × List ℕ} {rest : List (List ℕ × List ℕ)}
    {St : NArr} {Si : Mat} {out : NArr × Mat}
    (h : boost_fold_loop Xtr Xte yd params nbr i (tv :: rest) St Si = Except.ok out) :
    ∃ St1 Si1, boost_fold_body Xtr Xte yd params nbr i tv St Si = Except.ok (St1, Si1) ∧
      boost_fold_loop Xtr Xte yd params nbr (i + 1) rest St1 Si1 = Except.ok out := by
  simp only [boost_fold_loop] at h
  cases hb : boost_fold_body Xtr Xte yd params nbr i tv St Si with
  | error e => rw [hb] at h; cases h
  | ok p =>
    obtain ⟨St1, Si1⟩ := p
    rw [hb] at h
    exact ⟨St1, Si1, rfl, h⟩

theorem boost_loop_dtype_length {Xtr Xte : List Row} {yd : List ℚ} {params : BoostParams}
    {nbr : ℕ} {folds : List (List ℕ × List ℕ)} {i : ℕ} {St : NArr} {Si : Mat}
    {out : NArr × Mat}
    (h : boost_fold_loop Xtr Xte yd params nbr i folds St Si = Except.ok out) :
    out.1.dtype = St.dtype ∧ out.1.data.length = St.data.length := by
  induction folds generalizing i St Si with
  | nil =>
    simp only [boost_fold_loop] at h
    cases h
    exact ⟨rfl, rfl⟩
  | cons tv rest ih =>
    obtain ⟨St1, Si1, hb, hrest⟩ := boost_loop_ok_cons h
    obtain ⟨_, _, _, _, _, _, _, _, _, _, _, h6, _, _⟩ := boost_body_ok_elim hb
    obtain ⟨hd, hset⟩ := narrSetAtIdx_ok_elim h6
    obtain ⟨hd', hl'⟩ := ih hrest
    refine ⟨hd'.trans hd, hl'.trans ?_⟩
    exact setAtIdx_ok_length hset

theorem boost_loop_untouched {Xtr Xte : List Row} {yd : List ℚ} {params : BoostParams}
    {nbr : ℕ} {folds : List (List ℕ × List ℕ)} {i : ℕ} {St : NArr} {Si : Mat}
    {out : NArr × Mat}
    (h : boost_fold_loop Xtr Xte yd params nbr i folds St Si = Except.ok out)
    (p : ℕ) (hp : ∀ tv ∈ folds, p ∉ tv.2) :
    out.1.data.getD p 0 = St.data.getD p 0 := by
  induction folds generalizing i St Si with
  | nil =>
    simp only [boost_fold_loop] at h
    cases h
    rfl
  | cons tv rest ih =>
    obtain ⟨St1, Si1, hb, hrest⟩ := boost_loop_ok_cons h
    obtain ⟨_, _, _, _, _, _, _, _, _, _, _, h6, _, _⟩ := boost_body_ok_elim hb
    obtain ⟨_, hset⟩ := narrSetAtIdx_ok_elim h6
    have h1 := setAtIdx_ok_notMem (d := (0 : ℚ)) hset p (hp tv (by simp))
    have h2 := ih hrest (fun f hf => hp f (by simp [hf]))
    exact h2.trans h1

theorem boost_loop_last_write {Xtr Xte : List Row} {yd : List ℚ} {params : BoostParams}
    {nbr : ℕ} {tv : List ℕ × List ℕ} {post : List (List ℕ × List ℕ)} {i : ℕ}
    {St : NArr} {Si : Mat} {out : NArr × Mat}
    (h : boost_fold_loop Xtr Xte yd params nbr i (tv :: post) St Si = Except.ok out)
    (p : ℕ) (hmem : p ∈ tv.2) (hnd : tv.2.Nodup) (hpost : ∀ f ∈ post, p ∉ f.2) :
    ∃ v, boostOofVal Xtr yd params nbr tv p = Except.ok v ∧
      out.1.data.getD p 0 = castD St.dtype v := by
  obtain ⟨St1, Si1, hb, hrest⟩ := boost_loop_ok_cons h
  obtain ⟨Xc, Xv, yc, b, vp, tp, h1, h2, h3, h4, h5, h6, h7, h8⟩ := boost_body_ok_elim hb
  obtain ⟨hd, hset⟩ := narrSetAtIdx_ok_elim h6
  -- locate p inside the validation index list
  obtain ⟨⟨k, hk⟩, hkp⟩ := List.mem_iff_get.mp hmem
  -- lengths
  have hXv := getAtIdx_ok_length h2
  have hvp := mapE_ok_length h5
  have hkXv : k < Xv.length := by rw [hXv]; exact hk
  have hkvp : k < vp.length := by rw [hvp, hXv]; exact hk
  -- the validation slice row k is training row p
  obtain ⟨hplt, hXvk⟩ := getAtIdx_ok_get (d := ([] : Row)) h2 k hk hkXv
  -- the prediction on that row
  have hpred := mapE_ok_get h5 k hkXv hkvp
  -- the stored value
  have hkmap : k < (vp.map (castD St.dtype)).length := by simpa using hkvp
  have hstore := setAtIdx_ok_nodup_get hset hnd k hk hkmap
  have hkeep := boost_loop_untouched hrest p hpost
  refine ⟨vp.get ⟨k, hkvp⟩, ?_, ?_⟩
  · unfold boostOofVal boostFoldModel
    simp only [h1, h3, h4]
    rw [hkp] at hXvk
    rw [← hXvk]
    exact hpred
  · rw [hkp] at hstore
    rw [hkeep, hstore]
    simp

theorem boost_loop_Si_frame {Xtr Xte : List Row} {yd : List ℚ} {params : BoostParams}
    {nbr : ℕ} {folds : List (List ℕ × List ℕ)} {i : ℕ} {St : NArr} {Si : Mat}
    {out : NArr × Mat}
    (h : boost_fold_loop Xtr Xte yd params nbr i folds St Si = Except.ok out) :
    out.2.length = Si.length ∧
    ∀ c, (c < i ∨ i + folds.length ≤ c) → out.2.getD c [] = Si.getD c [] := by
  induction folds generalizing i St Si with
  | nil =>
    simp only [boost_fold_loop] at h
    cases h
    exact ⟨rfl, fun c _ => rfl⟩
  | cons tv rest ih =>
    obtain ⟨St1, Si1, hb, hrest⟩ := boost_loop_ok_cons h
    obtain ⟨_, _, _, _, _, tp, _, _, _, _, _, _, _, h8⟩ := boost_body_ok_elim hb
    obtain ⟨hi, hvl, hMset⟩ := setColE_ok_elim h8
    have hM2 : Si1 = List.set Si i tp := hMset
    obtain ⟨hlen, hframe⟩ := ih hrest
    constructor
    · rw [hlen, hM2]
      simp
    · intro c hc
      have hc' : c < i + 1 ∨ (i + 1) + rest.length ≤ c := by
        rcases hc with hc | hc
        · exact Or.inl (by omega)
        · simp only [List.length_cons] at hc
          exact Or.inr (by omega)
      rw [hframe c hc', hM2]
      have hne : i ≠ c := by
        rcases hc with hc | hc
        · omega
        · simp only [List.length_cons] at hc
          omega
      exact getD_set_ne hne

theorem boost_loop_Si_cols {Xtr Xte : List Row} {yd : List ℚ} {params : BoostParams}
    {nbr : ℕ} {folds : List (List ℕ × List ℕ)} {i : ℕ} {St : NArr} {Si : Mat}
    {out : NArr × Mat}
    (h : boost_fold_loop Xtr Xte yd params nbr i folds St Si = Except.ok out) :
    ∀ k, (hk : k < folds.length) →
      ∃ tp, boostFoldTestPred Xtr Xte yd params nbr (folds.get ⟨k, hk⟩) = Except.ok tp ∧
        out.2.getD (i + k) [] = tp := by
  induction folds generalizing i St Si with
  | nil => intro k hk; exact absurd hk (by simp)
  | cons tv rest ih =>
    intro k hk
    obtain ⟨St1, Si1, hb, hrest⟩ := boost_loop_ok_cons h
    obtain ⟨Xc, Xv, yc, b, vp, tp, h1, h2, h3, h4, h5, h6, h7, h8⟩ := boost_body_ok_elim hb
    cases k with
    | zero =>
      refine ⟨tp, ?_, ?_⟩
      · unfold boostFoldTestPred boostFoldModel boosterPredict
        simp only [List.get, h1, h3, h4]
        exact h7
      · obtain ⟨hi, hvl, hMset⟩ := setColE_ok_elim h8
        have hM2 : Si1 = List.set Si i tp := hMset
        have hframe := (boost_loop_Si_frame hrest).2 i (Or.inl (by omega))
        simp only [Nat.add_zero]
        rw [hframe, hM2]
        exact getD_set_self hi
    | succ k =>
      obtain ⟨tp', hspec, hcol⟩ := ih hrest k (Nat.lt_of_succ_lt_succ hk)
      refine ⟨tp', ?_, ?_⟩
      · simpa using hspec
      · have harith : i + (k + 1) = (i + 1) + k := by omega
        rw [harith]
        exact hcol

/-! ### Characterization of the generic-stacker fold loop -/

theorem fit_ok_elim {m : BaseModel} {X : List Row} {y : List ℚ} {m' : BaseModel}
    (h : BaseModel.fit m X y = Except.ok m') :
    m.fitF X y = Except.ok () ∧ m' = { m with fitted := some (X, y) } := by
  unfold BaseModel.fit at h
  cases hf : m.fitF X y with
  | error e => rw [hf] at h; cases h
  | ok u =>
    rw [hf] at h
    cases h
    exact ⟨rfl, rfl⟩

theorem foldModel_funs {Xtr : List Row} {yd : List ℚ} {m : BaseModel}
    {tv : List ℕ × List ℕ} {m' : BaseModel}
    (h : foldModel Xtr yd m tv = Except.ok m') :
    m'.fitF = m.fitF ∧ m'.predictF = m.predictF := by
  unfold foldModel at h
  cases h1 : getAtIdx Xtr tv.1 with
  | error e => rw [h1] at h; cases h
  | ok Xc =>
  rw [h1] at h
  cases h2 : getAtIdx yd tv.1 with
  | error e => rw [h2] at h; cases h
  | ok yc =>
  rw [h2] at h
  obtain ⟨_, hm⟩ := fit_ok_elim h
  rw [hm]
  exact ⟨rfl, rfl⟩

theorem foldModel_congr {Xtr : List Row} {yd : List ℚ} {m₁ m₂ : BaseModel}
    (hf : m₁.fitF = m₂.fitF) (hp : m₁.predictF = m₂.predictF)
    (tv : List ℕ × List ℕ) :
    foldModel Xtr yd m₁ tv = foldModel Xtr yd m₂ tv := by
  unfold foldModel
  cases getAtIdx Xtr tv.1 with
  | error e => rfl
  | ok Xc =>
  cases getAtIdx yd tv.1 with
  | error e => rfl
  | ok yc =>
  unfold BaseModel.fit
  rw [hf, hp]

theorem oofVal_congr {Xtr : List Row} {yd : List ℚ} {m₁ m₂ : BaseModel}
    (hf : m₁.fitF = m₂.fitF) (hp : m₁.predictF = m₂.predictF)
    (tv : List ℕ × List ℕ) (p : ℕ) :
    oofVal Xtr yd m₁ tv p = oofVal Xtr yd m₂ tv p := by
  unfold oofVal
  rw [foldModel_congr hf hp tv]

theorem foldTestPred_congr {Xtr Xte : List Row} {yd : List ℚ} {m₁ m₂ : BaseModel}
    (hf : m₁.fitF = m₂.fitF) (hp : m₁.predictF = m₂.predictF)
    (tv : List ℕ × List ℕ) :
    foldTestPred Xtr Xte yd m₁ tv = foldTestPred Xtr Xte yd m₂ tv := by
  unfold foldTestPred
  rw [foldModel_congr hf hp tv]

theorem other_body_ok_elim {Xtr Xte : List Row} {yd : List ℚ} {i j : ℕ}
    {tv : List ℕ × List ℕ} {m : BaseModel} {St Si : Mat} {out : BaseModel × Mat × Mat}
    (h : other_fold_body Xtr Xte yd i j tv m St Si = Except.ok out) :
    ∃ Xv yp tp,
      getAtIdx Xtr tv.2 = Except.ok Xv ∧
      foldModel Xtr yd m tv = Except.ok out.1 ∧
      mapE out.1.predictRow Xv = Except.ok yp ∧
      setColAtIdx St i tv.2 yp = Except.ok out.2.1 ∧
      mapE out.1.predictRow Xte = Except.ok tp ∧
      setColE Si j tp = Except.ok out.2.2 := by
  unfold other_fold_body at h
  cases h1 : getAtIdx Xtr tv.1 with
  | error e => simp only [h1] at h; cases h
  | ok Xc =>
  simp only [h1] at h
  cases h2 : getAtIdx Xtr tv.2 with
  | error e => simp only [h2] at h; cases h
  | ok Xv =>
  simp only [h2] at h
  cases h3 : getAtIdx yd tv.1 with
  | error e => simp only [h3] at h; cases h
  | ok yc =>
  simp only [h3] at h
  cases h4 : BaseModel.fit m Xc yc with
  | error e => simp only [h4] at h; cases h
  | ok m1 =>
  simp only [h4] at h
  cases h5 : BaseModel.predict m1 Xv with
  | error e => simp only [h5] at h; cases h
  | ok yp =>
  simp only [h5] at h
  cases h6 : setColAtIdx St i tv.2 yp with
  | error e => simp only [h6] at h; cases h
  | ok St1 =>
  simp only [h6] at h
  cases h7 : BaseModel.predict m1 Xte with
  | error e => simp only [h7] at h; cases h
  | ok tp =>
  simp only [h7] at h
  cases h8 : setColE Si j tp with
  | error e => simp only [h8] at h; cases h
  | ok Si1 =>
  simp only [h8] at h
  cases h
  refine ⟨Xv, yp, tp, rfl, ?_, h5, h6, h7, h8⟩
  unfold foldModel
  rw [h1, h3]
  exact h4

theorem other_loop_ok_cons {Xtr Xte : List Row} {yd : List ℚ} {i j : ℕ}
    {tv : List ℕ × List ℕ} {rest : List (List ℕ × List ℕ)} {m : BaseModel}
    {St Si : Mat} {out : BaseModel × Mat × Mat}
    (h : other_fold_loop Xtr Xte yd i j (tv :: rest) m St Si = Except.ok out) :
    ∃ m1 St1 Si1, other_fold_body Xtr Xte yd i j tv m St Si = Except.ok (m1, St1, Si1) ∧
      other_fold_loop Xtr Xte yd i (j + 1) rest m1 St1 Si1 = Except.ok out := by
  simp only [other_fold_loop] at h
  cases hb : other_fold_body Xtr Xte yd i j tv m St Si with
  | error e => rw [hb] at h; cases h
  | ok p =>
    obtain ⟨m1, St1, Si1⟩ := p
    rw [hb] at h
    exact ⟨m1, St1, Si1, rfl, h⟩

theorem other_loop_append (Xtr Xte : List Row) (yd : List ℚ) (i : ℕ)
    (A B : List (List ℕ × List ℕ)) (j : ℕ) (m : BaseModel) (St Si : Mat) :
    other_fold_loop Xtr Xte yd i j (A ++ B) m St Si =
      match other_fold_loop Xtr Xte yd i j A m St Si with
      | Except.error e => Except.error e
      | Except.ok (m', St', Si') => other_fold_loop Xtr Xte yd i (j + A.length) B m' St' Si' := by
  induction A generalizing j m St Si with
  | nil => simp [other_fold_loop]
  | cons tv rest ih =>
    simp only [List.cons_append, other_fold_loop]
    cases hb : other_fold_body Xtr Xte yd i j tv m St Si with
    | error e => rfl
    | ok p =>
      obtain ⟨m1, St1, Si1⟩ := p
      simp only [List.append_eq]
      rw [ih]
      have harith : j + (rest.length + 1) = j + 1 + rest.length := by omega
      simp [harith]

theorem other_loop_funs {Xtr Xte : List Row} {yd : List ℚ} {i j : ℕ}
    {folds : List (List ℕ × List ℕ)} {m : BaseModel} {St Si : Mat}
    {out : BaseModel × Mat × Mat}
    (h : other_fold_loop Xtr Xte yd i j folds m St Si = Except.ok out) :
    out.1.fitF = m.fitF ∧ out.1.predictF = m.predictF := by
  induction folds generalizing j m St Si with
  | nil =>
    simp only [other_fold_loop] at h
    cases h
    exact ⟨rfl, rfl⟩
  | cons tv rest ih =>
    obtain ⟨m1, St1, Si1, hb, hrest⟩ := other_loop_ok_cons h
    obtain ⟨_, _, _, _, hfm, _, _, _, _⟩ := other_body_ok_elim hb
    obtain ⟨hf1, hp1⟩ := foldModel_funs hfm
    obtain ⟨hf2, hp2⟩ := ih hrest
    exact ⟨hf2.trans hf1, hp2.trans hp1⟩

theorem other_loop_St_frame {Xtr Xte : List Row} {yd : List ℚ} {i j : ℕ}
    {folds : List (List ℕ × List ℕ)} {m : BaseModel} {St Si : Mat}
    {out : BaseModel × Mat × Mat}
    (h : other_fold_loop Xtr Xte yd i j folds m St Si = Except.ok out) :
    out.2.1.length = St.length ∧
    (∀ c, (out.2.1.getD c []).length = (St.getD c []).length) ∧
    (∀ c, c ≠ i → out.2.1.getD c [] = St.getD c []) := by
  induction folds generalizing j m St Si with
  | nil =>
    simp only [other_fold_loop] at h
    cases h
    exact ⟨rfl, fun c => rfl, fun c _ => rfl⟩
  | cons tv rest ih =>
    obtain ⟨m1, St1, Si1, hb, hrest⟩ := other_loop_ok_cons h
    obtain ⟨_, yp, _, _, _, _, h6, _, _⟩ := other_body_ok_elim hb
    obtain ⟨hi, c', hset, hMset⟩ := setColAtIdx_ok_elim h6
    have hM2 : St1 = List.set St i c' := hMset
    obtain ⟨hlen, hcollen, hframe⟩ := ih hrest
    refine ⟨by rw [hlen, hM2]; simp, ?_, ?_⟩
    · intro c
      rw [hcollen c, hM2]
      by_cases hc : i = c
      · subst hc
        rw [getD_set_self hi, setAtIdx_ok_length hset, getD_getElem hi]
        simp [List.get_eq_getElem]
      · rw [getD_set_ne hc]
    · intro c hc
      rw [hframe c hc, hM2, getD_set_ne (fun he => hc he.symm)]

theorem other_loop_untouched {Xtr Xte : List Row} {yd : List ℚ} {i j : ℕ}
    {folds : List (List ℕ × List ℕ)} {m : BaseModel} {St Si : Mat}
    {out : BaseModel × Mat × Mat}
    (h : other_fold_loop Xtr Xte yd i j folds m St Si = Except.ok out)
    (p : ℕ) (hp : ∀ tv ∈ folds, p ∉ tv.2) :
    colAt out.2.1 i p = colAt St i p := by
  induction folds generalizing j m St Si with
  | nil =>
    simp only [other_fold_loop] at h
    cases h
    rfl
  | cons tv rest ih =>
    obtain ⟨m1, St1, Si1, hb, hrest⟩ := other_loop_ok_cons h
    obtain ⟨_, yp, _, _, _, _, h6, _, _⟩ := other_body_ok_elim hb
    obtain ⟨hi, c', hset, hMset⟩ := setColAtIdx_ok_elim h6
    have hM2 : St1 = List.set St i c' := hMset
    have h1 : colAt St1 i p = colAt St i p := by
      rw [hM2]
      unfold colAt
      rw [getD_set_self hi, getD_getElem hi]
      exact setAtIdx_ok_notMem hset p (hp tv (by simp))
    have h2 := ih hrest (fun f hf => hp f (by simp [hf]))
    exact h2.trans h1

theorem other_loop_last_write {Xtr Xte : List Row} {yd : List ℚ} {i j : ℕ}
    {tv : List ℕ × List ℕ} {post : List (List ℕ × List ℕ)} {m : BaseModel}
    {St Si : Mat} {out : BaseModel × Mat × Mat}
    (h : other_fold_loop Xtr Xte yd i j (tv :: post) m St Si = Except.ok out)
    (p : ℕ) (hmem : p ∈ tv.2) (hnd : tv.2.Nodup) (hpost : ∀ f ∈ post, p ∉ f.2) :
    ∃ v, oofVal Xtr yd m tv p = Except.ok v ∧ colAt out.2.1 i p = v := by
  obtain ⟨m1, St1, Si1, hb, hrest⟩ := other_loop_ok_cons h
  obtain ⟨Xv, yp, tp, h2, hfm, h5, h6, h7, h8⟩ := other_body_ok_elim hb
  obtain ⟨hi, c', hset, hMset⟩ := setColAtIdx_ok_elim h6
  have hM2 : St1 = List.set St i c' := hMset
  obtain ⟨⟨k, hk⟩, hkp⟩ := List.mem_iff_get.mp hmem
  have hXv := getAtIdx_ok_length h2
  have hyp := mapE_ok_length h5
  have hkXv : k < Xv.length := by rw [hXv]; exact hk
  have hkyp : k < yp.length := by rw [hyp, hXv]; exact hk
  obtain ⟨hplt, hXvk⟩ := getAtIdx_ok_get (d := ([] : Row)) h2 k hk hkXv
  have hpred := mapE_ok_get h5 k hkXv hkyp
  have hstore := setAtIdx_ok_nodup_get hset hnd k hk hkyp
  have hkeep := other_loop_untouched hrest p hpost
  refine ⟨yp.get ⟨k, hkyp⟩, ?_, ?_⟩
  · have hbody1 : other_fold_body Xtr Xte yd i j tv m St Si = Except.ok (m1, St1, Si1) := hb
    unfold oofVal
    have hfm' : foldModel Xtr yd m tv = Except.ok (m1, St1, Si1).1 := hfm
    rw [hfm']
    rw [hkp] at hXvk
    rw [← hXvk]
    exact hpred
  · rw [hkp] at hstore
    have h1 : colAt St1 i p = yp.get ⟨k, hkyp⟩ := by
      rw [hM2]
      unfold colAt
      rw [getD_set_self hi]
      exact hstore
    exact hkeep.trans h1

theorem other_loop_Si_frame {Xtr Xte : List Row} {yd : List ℚ} {i j : ℕ}
    {folds : List (List ℕ × List ℕ)} {m : BaseModel} {St Si : Mat}
    {out : BaseModel × Mat × Mat}
    (h : other_fold_loop Xtr Xte yd i j folds m St Si = Except.ok out) :
    out.2.2.length = Si.length ∧
    ∀ c, (c < j ∨ j + folds.length ≤ c) → out.2.2.getD c [] = Si.getD c [] := by
  induction folds generalizing j m St Si with
  | nil =>
    simp only [other_fold_loop] at h
    cases h
    exact ⟨rfl, fun c _ => rfl⟩
  | cons tv rest ih =>
    obtain ⟨m1, St1, Si1, hb, hrest⟩ := other_loop_ok_cons h
    obtain ⟨_, _, tp, _, _, _, _, _, h8⟩ := other_body_ok_elim hb
    obtain ⟨hi, hvl, hMset⟩ := setColE_ok_elim h8
    have hM2 : Si1 = List.set Si j tp := hMset
    obtain ⟨hlen, hframe⟩ := ih hrest
    constructor
    · rw [hlen, hM2]
      simp
    · intro c hc
      have hc' : c < j + 1 ∨ (j + 1) + rest.length ≤ c := by
        rcases hc with hc | hc
        · exact Or.inl (by omega)
        · simp only [List.length_cons] at hc
          exact Or.inr (by omega)
      rw [hframe c hc', hM2]
      have hne : j ≠ c := by
        rcases hc with hc | hc
        · omega
        · simp only [List.length_cons] at hc
          omega
      exact getD_set_ne hne

theorem other_loop_Si_cols {Xtr Xte : List Row} {yd : List ℚ} {i j : ℕ}
    {folds : List (List ℕ × List ℕ)} {m : BaseModel} {St Si : Mat}
    {out : BaseModel × Mat × Mat}
    (h : other_fold_loop Xtr Xte yd i j folds m St Si = Except.ok out) :
    ∀ k, (hk : k < folds.length) →
      ∃ tp, foldTestPred Xtr Xte yd m (folds.get ⟨k, hk⟩) = Except.ok tp ∧
        out.2.2.getD (j + k) [] = tp := by
  induction folds generalizing j m St Si with
  | nil => intro k hk; exact absurd hk (by simp)
  | cons tv rest ih =>
    intro k hk
    obtain ⟨m1, St1, Si1, hb, hrest⟩ := other_loop_ok_cons h
    obtain ⟨Xv, yp, tp, h2, hfm, h5, h6, h7, h8⟩ := other_body_ok_elim hb
    cases k with
    | zero =>
      refine ⟨tp, ?_, ?_⟩
      · unfold foldTestPred
        simp only [List.get]
        have hfm' : foldModel Xtr yd m tv = Except.ok (m1, St1, Si1).1 := hfm
        rw [hfm']
        exact h7
      · obtain ⟨hi, hvl, hMset⟩ := setColE_ok_elim h8
        have hM2 : Si1 = List.set Si j tp := hMset
        have hframe := (other_loop_Si_frame hrest).2 j (Or.inl (by omega))
        simp only [Nat.add_zero]
        rw [hframe, hM2]
        exact getD_set_self hi
    | succ k =>
      obtain ⟨tp', hspec, hcol⟩ := ih hrest k (Nat.lt_of_succ_lt_succ hk)
      have hfm' : foldModel Xtr yd m tv = Except.ok (m1, St1, Si1).1 := hfm
      obtain ⟨hf1, hp1⟩ := foldModel_funs hfm'
      refine ⟨tp', ?_, ?_⟩
      · rw [← foldTestPred_congr hf1 hp1]
        simpa using hspec
      · have harith : j + (k + 1) = (j + 1) + k := by omega
        rw [harith]
        exact hcol

theorem other_loop_final_model {Xtr Xte : List Row} {yd : List ℚ} {i j : ℕ}
    {tv : List ℕ × List ℕ} {folds : List (List ℕ × List ℕ)} {m : BaseModel}
    {St Si : Mat} {out : BaseModel × Mat × Mat}
    (h : other_fold_loop Xtr Xte yd i j (tv :: folds) m St Si = Except.ok out) :
    ∃ mf, foldModel Xtr yd m ((tv :: folds).getLast (by simp)) = Except.ok mf ∧
      out.1 = mf := by
  induction folds generalizing j m St Si tv with
  | nil =>
    obtain ⟨m1, St1, Si1, hb, hrest⟩ := other_loop_ok_cons h
    obtain ⟨_, _, _, _, hfm, _, _, _, _⟩ := other_body_ok_elim hb
    simp only [other_fold_loop] at hrest
    cases hrest
    exact ⟨m1, hfm, rfl⟩
  | cons tv2 rest ih =>
    obtain ⟨m1, St1, Si1, hb, hrest⟩ := other_loop_ok_cons h
    obtain ⟨_, _, _, _, hfm, _, _, _, _⟩ := other_body_ok_elim hb
    have hfm' : foldModel Xtr yd m tv = Except.ok (m1, St1, Si1).1 := hfm
    obtain ⟨hf1, hp1⟩ := foldModel_funs hfm'
    obtain ⟨mf, hspec, hout⟩ := ih hrest
    refine ⟨mf, ?_, hout⟩
    rw [List.getLast_cons (by simp)]
    rw [foldModel_congr hf1.symm hp1.symm]
    · exact hspec

theorem mapE_ok_of_pointwise {f : α → Except PyErr β} {l : List α}
    (h : ∀ k, (hk : k < l.length) → ∃ y, f (l.get ⟨k, hk⟩) = Except.ok y) :
    ∃ ys, mapE f l = Except.ok ys := by
  induction l with
  | nil => exact ⟨[], rfl⟩
  | cons x xs ih =>
    obtain ⟨y, hy⟩ := h 0 (by simp)
    obtain ⟨ys, hys⟩ := ih (fun k hk => h (k + 1) (by simpa using Nat.succ_lt_succ hk))
    refine ⟨y :: ys, ?_⟩
    simp only [mapE, List.get] at hy hys ⊢
    rw [hy, hys]

theorem boost_loop_Si_collen {Xtr Xte : List Row} {yd : List ℚ} {params : BoostParams}
    {nbr : ℕ} {folds : List (List ℕ × List ℕ)} {i : ℕ} {St : NArr} {Si : Mat}
    {out : NArr × Mat}
    (h : boost_fold_loop Xtr Xte yd params nbr i folds St Si = Except.ok out) :
    ∀ c, (out.2.getD c []).length = (Si.getD c []).length := by
  induction folds generalizing i St Si with
  | nil =>
    simp only [boost_fold_loop] at h
    cases h
    exact fun c => rfl
  | cons tv rest ih =>
    obtain ⟨St1, Si1, hb, hrest⟩ := boost_loop_ok_cons h
    obtain ⟨_, _, _, _, _, tp, _, _, _, _, _, _, _, h8⟩ := boost_body_ok_elim hb
    obtain ⟨hi, hvl, hMset⟩ := setColE_ok_elim h8
    have hM2 : Si1 = List.set Si i tp := hMset
    intro c
    rw [ih hrest c, hM2]
    by_cases hc : i = c
    · subst hc
      rw [getD_set_self hi, hvl, getD_getElem hi]
      simp [List.get_eq_getElem]
    · rw [getD_set_ne hc]

theorem other_loop_Si_collen {Xtr Xte : List Row} {yd : List ℚ} {i j : ℕ}
    {folds : List (List ℕ × List ℕ)} {m : BaseModel} {St Si : Mat}
    {out : BaseModel × Mat × Mat}
    (h : other_fold_loop Xtr Xte yd i j folds m St Si = Except.ok out) :
    ∀ c, (out.2.2.getD c []).length = (Si.getD c []).length := by
  induction folds generalizing j m St Si with
  | nil =>
    simp only [other_fold_loop] at h
    cases h
    exact fun c => rfl
  | cons tv rest ih =>
    obtain ⟨m1, St1, Si1, hb, hrest⟩ := other_loop_ok_cons h
    obtain ⟨_, _, tp, _, _, _, _, _, h8⟩ := other_body_ok_elim hb
    obtain ⟨hi, hvl, hMset⟩ := setColE_ok_elim h8
    have hM2 : Si1 = List.set Si j tp := hMset
    intro c
    rw [ih hrest c, hM2]
    by_cases hc : j = c
    · subst hc
      rw [getD_set_self hi, hvl, getD_getElem hi]
      simp [List.get_eq_getElem]
    · rw [getD_set_ne hc]

theorem zerosMat_getD_length {nrows ncols k : ℕ} (hk : k < ncols) :
    ((zerosMat nrows ncols).getD k []).length = nrows := by
  unfold zerosMat
  rw [getD_replicate_of_lt hk]
  simp

/-! ### Well-formed partitions: decomposition around a covered row -/

theorem wf_decomp {kf : KFold} {n p : ℕ} (hwf : wellFormed kf n) (hp : p < n) :
    ∃ A tv B, kf.folds = A ++ tv :: B ∧ p ∈ tv.2 ∧ tv.2.Nodup ∧
      (∀ f ∈ A, p ∉ f.2) ∧ (∀ f ∈ B, p ∉ f.2) := by
  obtain ⟨hpair, hrange, hcover, hnodup⟩ := hwf
  obtain ⟨tv, htv, hmem⟩ := hcover p hp
  obtain ⟨A, B, hsplit⟩ := List.append_of_mem htv
  refine ⟨A, tv, B, hsplit, hmem, hnodup tv htv, ?_, ?_⟩
  · intro f hf hpf
    rw [hsplit] at hpair
    exact (List.pairwise_append.mp hpair).2.2 f hf tv (by simp) p hpf hmem
  · intro f hf hpf
    rw [hsplit] at hpair
    exact (List.pairwise_cons.mp (List.pairwise_append.mp hpair).2.1).1 f hf p hmem hpf

theorem wf_countP {kf : KFold} {n p : ℕ} (hwf : wellFormed kf n) (hp : p < n) :
    kf.folds.countP (fun tv => decide (p ∈ tv.2)) = 1 := by
  obtain ⟨A, tv, B, hsplit, hmem, hnd, hA, hB⟩ := wf_decomp hwf hp
  rw [hsplit, List.countP_append, List.countP_cons]
  have hA0 : A.countP (fun tv => decide (p ∈ tv.2)) = 0 :=
    List.countP_eq_zero.mpr (fun f hf => by simp [hA f hf])
  have hB0 : B.countP (fun tv => decide (p ∈ tv.2)) = 0 :=
    List.countP_eq_zero.mpr (fun f hf => by simp [hB f hf])
  simp [hA0, hB0, hmem]

/-! ### Unfolding the run operations on success -/

theorem run_lgbm_ok_elim {s : Stacker} {params : BoostParams} {nbr : ℕ}
    {St : NArr} {Ste : List ℚ}
    (h : run_lgbm_stacker s params nbr = Except.ok (St, Ste)) :
    ∃ Si, boost_fold_loop s.X_train s.X_test s.y.data params nbr 0 s.kf_n.folds
        (zeros_like s.y) (zerosMat s.y.data.length s.kf_n.n_folds) = Except.ok (St, Si) ∧
      Ste = (sumCols Si s.y.data.length).map (fun x => x / (s.kf_n.n_folds : ℚ)) := by
  unfold run_lgbm_stacker at h
  cases hl : boost_fold_loop s.X_train s.X_test s.y.data params nbr 0 s.kf_n.folds
      (zeros_like s.y) (zerosMat s.y.data.length s.kf_n.n_folds) with
  | error e => simp only [hl] at h; cases h
  | ok q =>
    obtain ⟨St', Si⟩ := q
    simp only [hl] at h
    obtain ⟨h1, h2⟩ : St' = St ∧
        (sumCols Si s.y.data.length).map (fun x => x / (s.kf_n.n_folds : ℚ)) = Ste := by
      simpa using h
    exact ⟨Si, by rw [h1], h2.symm⟩

theorem run_xgboost_eq_lgbm (s : Stacker) (params : BoostParams) (nbr : ℕ) :
    run_xgboost_stacker s params nbr = run_lgbm_stacker s params nbr := rfl

theorem run_other_single_ok_elim {s : Stacker} {m : BaseModel} {Str Ste : Mat}
    (h : run_other_stackers s [m] = Except.ok (Str, Ste)) :
    ∃ mA Si, other_fold_loop s.X_train s.X_test s.y.data 0 0 s.kf_n.folds m
        (zerosMat s.X_train.length 1) (zerosMat s.X_test.length s.kf_n.len) =
        Except.ok (mA, Str, Si) ∧
      setColE (zerosMat s.X_test.length 1) 0 (matMean1 Si s.X_test.length) = Except.ok Ste := by
  unfold run_other_stackers run_other_stackers_full other_model_loop at h
  cases hl : other_fold_loop s.X_train s.X_test s.y.data 0 0 s.kf_n.folds m
      (zerosMat s.X_train.length 1) (zerosMat s.X_test.length s.kf_n.len) with
  | error e => simp only [List.length_cons, List.length_nil, hl] at h; cases h
  | ok q =>
    obtain ⟨mA, St1, Si1⟩ := q
    simp only [List.length_cons, List.length_nil, hl] at h
    cases hc : setColE (zerosMat s.X_test.length 1) 0 (matMean1 Si1 s.X_test.length) with
    | error e => simp only [KFold.len, hc] at h; cases h
    | ok Ste1 =>
      simp only [KFold.len, hc, other_model_loop] at h
      obtain ⟨h1, h2⟩ : St1 = Str ∧ Ste1 = Ste := by simpa using h
      refine ⟨mA, Si1, ?_, ?_⟩
      · rw [h1]
      · rw [← h2]
        exact hc

theorem other_model_loop_ok_cons {Xtr Xte : List Row} {yd : List ℚ} {kf : KFold}
    {i : ℕ} {m : BaseModel} {rest : List BaseModel} {St Ste : Mat}
    {out : List BaseModel × Mat × Mat}
    (h : other_model_loop Xtr Xte yd kf i (m :: rest) St Ste = Except.ok out) :
    ∃ mA St1 Si1 Ste1 restA St2 Ste2,
      other_fold_loop Xtr Xte yd i 0 kf.folds m St (zerosMat Xte.length kf.len) =
        Except.ok (mA, St1, Si1) ∧
      setColE Ste i (matMean1 Si1 Xte.length) = Except.ok Ste1 ∧
      other_model_loop Xtr Xte yd kf (i + 1) rest St1 Ste1 =
        Except.ok (restA, St2, Ste2) ∧
      out = (mA :: restA, St2, Ste2) := by
  unfold other_model_loop at h
  cases hl : other_fold_loop Xtr Xte yd i 0 kf.folds m St (zerosMat Xte.length kf.len) with
  | error e => simp only [hl] at h; cases h
  | ok q =>
  obtain ⟨mA, St1, Si1⟩ := q
  simp only [hl] at h
  cases hc : setColE Ste i (matMean1 Si1 Xte.length) with
  | error e => simp only [hc] at h; cases h
  | ok Ste1 =>
  simp only [hc] at h
  cases hr : other_model_loop Xtr Xte yd kf (i + 1) rest St1 Ste1 with
  | error e => simp only [hr] at h; cases h
  | ok q2 =>
  obtain ⟨restA, St2, Ste2⟩ := q2
  simp only [hr] at h
  cases h
  exact ⟨mA, St1, Si1, Ste1, restA, St2, Ste2, rfl, hc, hr, rfl⟩

theorem other_model_loop_models {Xtr Xte : List Row} {yd : List ℚ} {kf : KFold}
    {i : ℕ} {ms : List BaseModel} {St Ste : Mat} {out : List BaseModel × Mat × Mat}
    (h : other_model_loop Xtr Xte yd kf i ms St Ste = Except.ok out)
    {lastTv : List ℕ × List ℕ} (hlast : kf.folds.getLast? = some lastTv) :
    out.1.length = ms.length ∧
    ∀ k, (hk : k < ms.length) → (hk2 : k < out.1.length) →
      ∃ mf, foldModel Xtr yd (ms.get ⟨k, hk⟩) lastTv = Except.ok mf ∧
        out.1.get ⟨k, hk2⟩ = mf := by
  induction ms generalizing i St Ste out with
  | nil =>
    simp only [other_model_loop] at h
    cases h
    exact ⟨rfl, fun k hk _ => absurd hk (by simp)⟩
  | cons m rest ih =>
    obtain ⟨mA, St1, Si1, Ste1, restA, St2, Ste2, hl, hc, hr, hout⟩ :=
      other_model_loop_ok_cons h
    obtain ⟨hlen, hrest⟩ := ih hr
    subst hout
    refine ⟨by simpa using hlen, ?_⟩
    intro k hk hk2
    cases k with
    | zero =>
      cases hfolds : kf.folds with
      | nil => rw [hfolds] at hlast; cases hlast
      | cons tv fs =>
        rw [hfolds] at hl hlast
        obtain ⟨mf, hspec, hout1⟩ := other_loop_final_model hl
        refine ⟨mf, ?_, hout1⟩
        rw [List.getLast?_eq_getLast_of_ne_nil (by simp)] at hlast
        have hlast2 : (tv :: fs).getLast (by simp) = lastTv := Option.some.inj hlast
        rw [← hlast2]
        exact hspec
    | succ k =>
      obtain ⟨mf, hspec, houtk⟩ := hrest k (Nat.lt_of_succ_lt_succ hk)
        (Nat.lt_of_succ_lt_succ (by simpa using hk2))
      exact ⟨mf, hspec, houtk⟩

/-! ### Claim theorems -/

/-- C1: the boosting stackers allocate the per-fold test matrix with
`self.y.shape[0]` (training-row count) rows instead of `self.X_test.shape[0]`
rows. On an orchestrator with 3 training rows and 2 test rows, both
`run_lgbm_stacker` and `run_xgboost_stacker` raise a numpy broadcast error
instead of returning a test output of length 2, violating the spec's shape
invariant; `run_other_stackers` on the same data returns correctly shaped
outputs (one row per training row, one row per test row, one column per
base model). -/
theorem c1_boost_test_alloc_bug :
    run_lgbm_stacker egShape (constBoost 0) 1 = Except.error PyErr.broadcastError ∧
    run_xgboost_stacker egShape (constBoost 0) 1 = Except.error PyErr.broadcastError ∧
    egShape.X_train.length = 3 ∧ egShape.X_test.length = 2 ∧
    run_other_stackers egShape [constModel 0] =
      Except.ok ([[0, 0, 0]], [[0, 0]]) := by
  refine ⟨by decide, by decide, by decide, by decide, ?_⟩
  norm_num [run_other_stackers, run_other_stackers_full, other_model_loop,
    other_fold_loop, other_fold_body, getAtIdx, mapE, setAtIdx, setColAtIdx,
    setColE, zerosMat, sumCols, matMean1, KFold.len, BaseModel.fit,
    BaseModel.predict, BaseModel.predictRow, constModel, egShape,
    ka_stacking_generalization, List.set, List.zipWith]

/-- C2: for a well-formed fold partition, every training row index `p` lies
in exactly one fold's validation-row-indices, and when a stacking operation
succeeds, position `p` of the out-of-fold training output holds exactly the
value computed by that unique covering fold (for the boosting stackers, cast
to the target dtype on store): the initial zero is overwritten exactly
once. -/
theorem c2_coverage_written_once (s : Stacker)
    (hwf : wellFormed s.kf_n s.X_train.length)
    (p : ℕ) (hp : p < s.X_train.length) :
    s.kf_n.folds.countP (fun tv => decide (p ∈ tv.2)) = 1 ∧
    (∀ params nbr St Ste,
      run_lgbm_stacker s params nbr = Except.ok (St, Ste) →
      ∃ tv v, tv ∈ s.kf_n.folds ∧ p ∈ tv.2 ∧
        boostOofVal s.X_train s.y.data params nbr tv p = Except.ok v ∧
        St.data.getD p 0 = castD s.y.dtype v) ∧
    (∀ m Str Ste,
      run_other_stackers s [m] = Except.ok (Str, Ste) →
      ∃ tv v, tv ∈ s.kf_n.folds ∧ p ∈ tv.2 ∧
        oofVal s.X_train s.y.data m tv p = Except.ok v ∧
        colAt Str 0 p = v) := by
  obtain ⟨A, tv, B, hsplit, hmem, hnd, hA, hB⟩ := wf_decomp hwf hp
  refine ⟨wf_countP hwf hp, ?_, ?_⟩
  · intro params nbr St Ste hrun
    obtain ⟨Si, hloop, _⟩ := run_lgbm_ok_elim hrun
    rw [hsplit] at hloop
    rw [boost_loop_append] at hloop
    cases hAloop : boost_fold_loop s.X_train s.X_test s.y.data params nbr 0 A
        (zeros_like s.y) (zerosMat s.y.data.length s.kf_n.n_folds) with
    | error e => rw [hAloop] at hloop; cases hloop
    | ok q =>
      obtain ⟨StA, SiA⟩ := q
      rw [hAloop] at hloop
      obtain ⟨v, hoof, hval⟩ := boost_loop_last_write hloop p hmem hnd hB
      have hdA := (boost_loop_dtype_length hAloop).1
      have hdz : (zeros_like s.y).dtype = s.y.dtype := rfl
      refine ⟨tv, v, by rw [hsplit]; simp, hmem, hoof, ?_⟩
      rw [hval, hdA, hdz]
  · intro m Str Ste hrun
    obtain ⟨mA, Si, hloop, _⟩ := run_other_single_ok_elim hrun
    rw [hsplit] at hloop
    rw [other_loop_append] at hloop
    cases hAloop : other_fold_loop s.X_train s.X_test s.y.data 0 0 A m
        (zerosMat s.X_train.length 1) (zerosMat s.X_test.length s.kf_n.len) with
    | error e => rw [hAloop] at hloop; cases hloop
    | ok q =>
      obtain ⟨mB, StB, SiB⟩ := q
      rw [hAloop] at hloop
      obtain ⟨v, hoof, hval⟩ := other_loop_last_write hloop p hmem hnd hB
      obtain ⟨hf1, hp1⟩ := other_loop_funs hAloop
      refine ⟨tv, v, by rw [hsplit]; simp, hmem, ?_, hval⟩
      rw [← hoof]
      exact (oofVal_congr hf1 hp1 tv p).symm

/-- Witness for C2 at a concrete well-formed two-fold orchestrator and
training row 0. -/
theorem c2_coverage_written_once_witness :
    egTwoFold.kf_n.folds.countP (fun tv => decide (0 ∈ tv.2)) = 1 ∧
    (∀ params nbr St Ste,
      run_lgbm_stacker egTwoFold params nbr = Except.ok (St, Ste) →
      ∃ tv v, tv ∈ egTwoFold.kf_n.folds ∧ 0 ∈ tv.2 ∧
        boostOofVal egTwoFold.X_train egTwoFold.y.data params nbr tv 0 = Except.ok v ∧
        St.data.getD 0 0 = castD egTwoFold.y.dtype v) ∧
    (∀ m Str Ste,
      run_other_stackers egTwoFold [m] = Except.ok (Str, Ste) →
      ∃ tv v, tv ∈ egTwoFold.kf_n.folds ∧ 0 ∈ tv.2 ∧
        oofVal egTwoFold.X_train egTwoFold.y.data m tv 0 = Except.ok v ∧
        colAt Str 0 0 = v) :=
  c2_coverage_written_once egTwoFold (by decide) 0 (by decide)

/-- C9: the boosting stackers allocate the out-of-fold output with
`np.zeros_like(self.y)`, hence with the target vector's dtype; for an
integer-dtype target, every stored fold prediction is truncated toward zero
on store, and concretely a booster predicting `1/2` everywhere yields a
training output of integer zeros while the same run's test output (a float
matrix) keeps the raw value `1/2 ≠ 0`. -/
theorem c9_int_target_truncation (s : Stacker) (hdt : s.y.dtype = Dtype.int)
    (hwf : wellFormed s.kf_n s.X_train.length) (p : ℕ) (hp : p < s.X_train.length) :
    (∀ y : NArr, (zeros_like y).dtype = y.dtype) ∧
    (∀ params nbr St Ste, run_lgbm_stacker s params nbr = Except.ok (St, Ste) →
      St.dtype = Dtype.int ∧
      ∃ tv v, tv ∈ s.kf_n.folds ∧ p ∈ tv.2 ∧
        boostOofVal s.X_train s.y.data params nbr tv p = Except.ok v ∧
        St.data.getD p 0 = ratTrunc v) ∧
    (∀ params nbr St Ste, run_xgboost_stacker s params nbr = Except.ok (St, Ste) →
      St.dtype = Dtype.int ∧
      ∃ tv v, tv ∈ s.kf_n.folds ∧ p ∈ tv.2 ∧
        boostOofVal s.X_train s.y.data params nbr tv p = Except.ok v ∧
        St.data.getD p 0 = ratTrunc v) ∧
    run_lgbm_stacker egIntTarget (constBoost (1 / 2)) 1 =
      Except.ok (⟨Dtype.int, [0, 0]⟩, [1 / 2, 1 / 2]) ∧
    run_xgboost_stacker egIntTarget (constBoost (1 / 2)) 1 =
      Except.ok (⟨Dtype.int, [0, 0]⟩, [1 / 2, 1 / 2]) ∧
    (1 / 2 : ℚ) ≠ 0 := by
  obtain ⟨A, tv, B, hsplit, hmem, hnd, hA, hB⟩ := wf_decomp hwf hp
  have hmain : ∀ params nbr St Ste, run_lgbm_stacker s params nbr = Except.ok (St, Ste) →
      St.dtype = Dtype.int ∧
      ∃ tv v, tv ∈ s.kf_n.folds ∧ p ∈ tv.2 ∧
        boostOofVal s.X_train s.y.data params nbr tv p = Except.ok v ∧
        St.data.getD p 0 = ratTrunc v := by
    intro params nbr St Ste hrun
    obtain ⟨Si, hloop, _⟩ := run_lgbm_ok_elim hrun
    have hdSt : St.dtype = Dtype.int := by
      have := (boost_loop_dtype_length hloop).1
      rw [← hdt]
      exact this
    refine ⟨hdSt, ?_⟩
    rw [hsplit] at hloop
    rw [boost_loop_append] at hloop
    cases hAloop : boost_fold_loop s.X_train s.X_test s.y.data params nbr 0 A
        (zeros_like s.y) (zerosMat s.y.data.length s.kf_n.n_folds) with
    | error e => rw [hAloop] at hloop; cases hloop
    | ok q =>
      obtain ⟨StA, SiA⟩ := q
      rw [hAloop] at hloop
      obtain ⟨v, hoof, hval⟩ := boost_loop_last_write hloop p hmem hnd hB
      have hdA : StA.dtype = Dtype.int := by
        have := (boost_loop_dtype_length hAloop).1
        rw [← hdt]
        exact this
      refine ⟨tv, v, by rw [hsplit]; simp, hmem, hoof, ?_⟩
      rw [hval, hdA]
      rfl
  refine ⟨fun y => rfl, hmain, ?_, ?_, ?_, by norm_num⟩
  · intro params nbr St Ste hrun
    exact hmain params nbr St Ste (by rw [← run_xgboost_eq_lgbm]; exact hrun)
  · norm_num [run_lgbm_stacker, boost_fold_loop, boost_fold_body, getAtIdx, mapE,
      setAtIdx, boosterPredict, narrSetAtIdx, setColE, zerosMat, zeros_like,
      sumCols, castD, ratTrunc, egIntTarget, constBoost,
      ka_stacking_generalization, List.set, List.zipWith]
  · rw [run_xgboost_eq_lgbm]
    norm_num [run_lgbm_stacker, boost_fold_loop, boost_fold_body, getAtIdx, mapE,
      setAtIdx, boosterPredict, narrSetAtIdx, setColE, zerosMat, zeros_like,
      sumCols, castD, ratTrunc, egIntTarget, constBoost,
      ka_stacking_generalization, List.set, List.zipWith]

/-- Witness for C9 at the concrete integer-target orchestrator and training
row 0. -/
theorem c9_int_target_truncation_witness :
    (∀ y : NArr, (zeros_like y).dtype = y.dtype) ∧
    (∀ params nbr St Ste, run_lgbm_stacker egIntTarget params nbr = Except.ok (St, Ste) →
      St.dtype = Dtype.int ∧
      ∃ tv v, tv ∈ egIntTarget.kf_n.folds ∧ 0 ∈ tv.2 ∧
        boostOofVal egIntTarget.X_train egIntTarget.y.data params nbr tv 0 = Except.ok v ∧
        St.data.getD 0 0 = ratTrunc v) ∧
    (∀ params nbr St Ste, run_xgboost_stacker egIntTarget params nbr = Except.ok (St, Ste) →
      St.dtype = Dtype.int ∧
      ∃ tv v, tv ∈ egIntTarget.kf_n.folds ∧ 0 ∈ tv.2 ∧
        boostOofVal egIntTarget.X_train egIntTarget.y.data params nbr tv 0 = Except.ok v ∧
        St.data.getD 0 0 = ratTrunc v) ∧
    run_lgbm_stacker egIntTarget (constBoost (1 / 2)) 1 =
      Except.ok (⟨Dtype.int, [0, 0]⟩, [1 / 2, 1 / 2]) ∧
    run_xgboost_stacker egIntTarget (constBoost (1 / 2)) 1 =
      Except.ok (⟨Dtype.int, [0, 0]⟩, [1 / 2, 1 / 2]) ∧
    (1 / 2 : ℚ) ≠ 0 :=
  c9_int_target_truncation egIntTarget (by decide) (by decide) 0 (by decide)

/-- C5 counterexample: on an integer-dtype orchestrator whose partition is
exactly the degenerate single fold (train-indices = validation-indices = all
training rows), `run_lgbm_stacker` with a booster predicting `1/2`
everywhere returns out-of-fold training predictions `[0, 0]`, while the
in-fold prediction of the model fit on all training rows at row 0 is `1/2`:
the unrestricted claim (out-of-fold equals in-fold for every stacking
operation) is false for integer-dtype targets, where the store truncates. -/
theorem c5_single_fold_counterexample :
    egIntTarget.kf_n.folds =
      [(List.range egIntTarget.X_train.length, List.range egIntTarget.X_train.length)] ∧
    run_lgbm_stacker egIntTarget (constBoost (1 / 2)) 1 =
      Except.ok (⟨Dtype.int, [0, 0]⟩, [1 / 2, 1 / 2]) ∧
    run_xgboost_stacker egIntTarget (constBoost (1 / 2)) 1 =
      Except.ok (⟨Dtype.int, [0, 0]⟩, [1 / 2, 1 / 2]) ∧
    boostOofVal egIntTarget.X_train egIntTarget.y.data (constBoost (1 / 2)) 1
      (List.range egIntTarget.X_train.length, List.range egIntTarget.X_train.length) 0 =
      Except.ok (1 / 2) ∧
    ((0 : ℚ) ≠ 1 / 2) := by
  refine ⟨by decide, ?_, ?_, ?_, by norm_num⟩
  · norm_num [run_lgbm_stacker, boost_fold_loop, boost_fold_body, getAtIdx, mapE,
      setAtIdx, boosterPredict, narrSetAtIdx, setColE, zerosMat, zeros_like,
      sumCols, castD, ratTrunc, egIntTarget, constBoost,
      ka_stacking_generalization, List.set, List.zipWith]
  · rw [run_xgboost_eq_lgbm]
    norm_num [run_lgbm_stacker, boost_fold_loop, boost_fold_body, getAtIdx, mapE,
      setAtIdx, boosterPredict, narrSetAtIdx, setColE, zerosMat, zeros_like,
      sumCols, castD, ratTrunc, egIntTarget, constBoost,
      ka_stacking_generalization, List.set, List.zipWith]
  · norm_num [boostOofVal, boostFoldModel, getAtIdx, mapE, egIntTarget, constBoost,
      ka_stacking_generalization, List.range, List.range.loop]

/-- C5 (amended): with a single fold whose train-row-indices and
validation-row-indices are both the full training index range, the generic
stacker's out-of-fold training output at each row equals the in-fold
prediction exactly (the prediction of a model fit on all training rows,
evaluated on that training row); the boosting stackers return the in-fold
predictions for float-dtype targets, where the store performs no cast
(for integer-dtype targets the stored values are truncations of the in-fold
predictions — the subject of C9 and of the counterexample above). -/
theorem c5_single_fold_infold (s : Stacker)
    (hkf : s.kf_n.folds = [(List.range s.X_train.length, List.range s.X_train.length)])
    (hy : s.y.data.length = s.X_train.length) :
    (∀ m Str Ste, run_other_stackers s [m] = Except.ok (Str, Ste) →
      ∀ p, p < s.X_train.length →
        ∃ v, BaseModel.predictRow { m with fitted := some (s.X_train, s.y.data) }
            (s.X_train.getD p []) = Except.ok v ∧
          colAt Str 0 p = v) ∧
    (s.y.dtype = Dtype.float →
      ∀ params nbr St Ste, run_lgbm_stacker s params nbr = Except.ok (St, Ste) →
      ∀ p, p < s.X_train.length →
        ∃ b v, params s.X_train s.y.data nbr = Except.ok b ∧
          b (s.X_train.getD p []) = Except.ok v ∧
          St.data.getD p 0 = v) ∧
    (s.y.dtype = Dtype.float →
      ∀ params nbr St Ste, run_xgboost_stacker s params nbr = Except.ok (St, Ste) →
      ∀ p, p < s.X_train.length →
        ∃ b v, params s.X_train s.y.data nbr = Except.ok b ∧
          b (s.X_train.getD p []) = Except.ok v ∧
          St.data.getD p 0 = v) := by
  have hydr : getAtIdx s.y.data (List.range s.X_train.length) = Except.ok s.y.data := by
    rw [← hy]
    exact getAtIdx_range_self s.y.data
  have hboost : s.y.dtype = Dtype.float →
      ∀ params nbr St Ste, run_lgbm_stacker s params nbr = Except.ok (St, Ste) →
      ∀ p, p < s.X_train.length →
        ∃ b v, params s.X_train s.y.data nbr = Except.ok b ∧
          b (s.X_train.getD p []) = Except.ok v ∧
          St.data.getD p 0 = v := by
    intro hdt params nbr St Ste hrun p hp
    obtain ⟨Si, hloop, _⟩ := run_lgbm_ok_elim hrun
    rw [hkf] at hloop
    obtain ⟨v, hoof, hval⟩ := boost_loop_last_write hloop p (List.mem_range.mpr hp)
      (List.nodup_range _) (by simp)
    unfold boostOofVal boostFoldModel at hoof
    simp only [getAtIdx_range_self, hydr] at hoof
    cases hb : params s.X_train s.y.data nbr with
    | error e => simp only [hb] at hoof; cases hoof
    | ok b =>
      simp only [hb] at hoof
      refine ⟨b, v, rfl, hoof, ?_⟩
      have hzf : (zeros_like s.y).dtype = Dtype.float := hdt
      rw [hval, hzf]
      rfl
  refine ⟨?_, hboost, ?_⟩
  · intro m Str Ste hrun p hp
    obtain ⟨mA, Si, hloop, _⟩ := run_other_single_ok_elim hrun
    rw [hkf] at hloop
    obtain ⟨v, hoof, hval⟩ := other_loop_last_write hloop p (List.mem_range.mpr hp)
      (List.nodup_range _) (by simp)
    unfold oofVal foldModel at hoof
    simp only [getAtIdx_range_self, hydr] at hoof
    cases hfit : BaseModel.fit m s.X_train s.y.data with
    | error e => simp only [hfit] at hoof; cases hoof
    | ok m1 =>
      simp only [hfit] at hoof
      obtain ⟨_, hm1⟩ := fit_ok_elim hfit
      rw [hm1] at hoof
      exact ⟨v, hoof, hval⟩
  · intro hdt params nbr St Ste hrun
    exact hboost hdt params nbr St Ste (by rw [← run_xgboost_eq_lgbm]; exact hrun)

/-- Witness for C5 at a concrete degenerate single-fold orchestrator. -/
theorem c5_single_fold_infold_witness :
    (∀ m Str Ste, run_other_stackers egSingleFold [m] = Except.ok (Str, Ste) →
      ∀ p, p < egSingleFold.X_train.length →
        ∃ v, BaseModel.predictRow
            { m with fitted := some (egSingleFold.X_train, egSingleFold.y.data) }
            (egSingleFold.X_train.getD p []) = Except.ok v ∧
          colAt Str 0 p = v) ∧
    (egSingleFold.y.dtype = Dtype.float →
      ∀ params nbr St Ste, run_lgbm_stacker egSingleFold params nbr = Except.ok (St, Ste) →
      ∀ p, p < egSingleFold.X_train.length →
        ∃ b v, params egSingleFold.X_train egSingleFold.y.data nbr = Except.ok b ∧
          b (egSingleFold.X_train.getD p []) = Except.ok v ∧
          St.data.getD p 0 = v) ∧
    (egSingleFold.y.dtype = Dtype.float →
      ∀ params nbr St Ste, run_xgboost_stacker egSingleFold params nbr = Except.ok (St, Ste) →
      ∀ p, p < egSingleFold.X_train.length →
        ∃ b v, params egSingleFold.X_train egSingleFold.y.data nbr = Except.ok b ∧
          b (egSingleFold.X_train.getD p []) = Except.ok v ∧
          St.data.getD p 0 = v) :=
  c5_single_fold_infold egSingleFold (by decide) (by decide)

/-- C3 counterexample: on a partition that yields one (train, validation)
pair but declares `n_folds = 2`, `run_lgbm_stacker` with a constant-4 booster
returns test value 2, while the arithmetic mean of that row's per-fold
predicted values (a single fold predicting 4) is 4: the boosting stackers
divide by the declared `n_folds` attribute, not by the number of folds the
partition yields, so the averaging law fails in the mismatch case the claim
includes. -/
theorem c3_averaging_counterexample :
    run_lgbm_stacker egMismatch (constBoost 4) 1 =
      Except.ok (⟨Dtype.float, [4]⟩, [2]) ∧
    mapE (boostFoldTestPred egMismatch.X_train egMismatch.X_test egMismatch.y.data
      (constBoost 4) 1) egMismatch.kf_n.folds = Except.ok [[4]] ∧
    (2 : ℚ) ≠
      ([[(4 : ℚ)]].map (fun c => c.getD 0 0)).sum / (egMismatch.kf_n.folds.length : ℚ) := by
  refine ⟨?_, ?_, ?_⟩
  · norm_num [run_lgbm_stacker, boost_fold_loop, boost_fold_body, getAtIdx, mapE,
      setAtIdx, boosterPredict, narrSetAtIdx, setColE, zerosMat, zeros_like,
      sumCols, castD, egMismatch, constBoost,
      ka_stacking_generalization, List.set, List.zipWith]
  · norm_num [boostFoldTestPred, boostFoldModel, boosterPredict, getAtIdx, mapE,
      egMismatch, constBoost, ka_stacking_generalization]
  · norm_num [egMismatch, ka_stacking_generalization]

/-- C3 (amended): whenever the partition yields exactly its declared
`n_folds` pairs, every stacking operation's test output at each row equals
the arithmetic mean, over the yielded folds, of that row's per-fold test
predictions (for the boosting stackers the rows of the allocated test
vector range over the training-row count, per the C1 allocation). -/
theorem c3_averaging_law (s : Stacker)
    (hlen : s.kf_n.folds.length = s.kf_n.n_folds) :
    (∀ params nbr St Ste, run_lgbm_stacker s params nbr = Except.ok (St, Ste) →
      ∃ tps, mapE (boostFoldTestPred s.X_train s.X_test s.y.data params nbr)
          s.kf_n.folds = Except.ok tps ∧
        ∀ r, r < s.y.data.length →
          Ste.getD r 0 = (tps.map (fun c => c.getD r 0)).sum / (s.kf_n.folds.length : ℚ)) ∧
    (∀ params nbr St Ste, run_xgboost_stacker s params nbr = Except.ok (St, Ste) →
      ∃ tps, mapE (boostFoldTestPred s.X_train s.X_test s.y.data params nbr)
          s.kf_n.folds = Except.ok tps ∧
        ∀ r, r < s.y.data.length →
          Ste.getD r 0 = (tps.map (fun c => c.getD r 0)).sum / (s.kf_n.folds.length : ℚ)) ∧
    (∀ m Str Ste, run_other_stackers s [m] = Except.ok (Str, Ste) →
      ∃ tps, mapE (foldTestPred s.X_train s.X_test s.y.data m)
          s.kf_n.folds = Except.ok tps ∧
        ∀ r, r < s.X_test.length →
          colAt Ste 0 r = (tps.map (fun c => c.getD r 0)).sum / (s.kf_n.folds.length : ℚ)) := by
  have hboost : ∀ params nbr St Ste, run_lgbm_stacker s params nbr = Except.ok (St, Ste) →
      ∃ tps, mapE (boostFoldTestPred s.X_train s.X_test s.y.data params nbr)
          s.kf_n.folds = Except.ok tps ∧
        ∀ r, r < s.y.data.length →
          Ste.getD r 0 = (tps.map (fun c => c.getD r 0)).sum / (s.kf_n.folds.length : ℚ) := by
    intro params nbr St Ste hrun
    obtain ⟨Si, hloop, hSte⟩ := run_lgbm_ok_elim hrun
    have hcols := boost_loop_Si_cols hloop
    have hcollen := boost_loop_Si_collen hloop
    have hSilen : Si.length = s.kf_n.n_folds := by
      have h1 := (boost_loop_Si_frame hloop).1
      simpa [zerosMat] using h1
    have hM : ∀ c ∈ Si, c.length = s.y.data.length := by
      intro c hc
      obtain ⟨⟨k, hk⟩, hck⟩ := List.mem_iff_get.mp hc
      have h1 := hcollen k
      have hk2 : k < s.kf_n.n_folds := by rw [← hSilen]; exact hk
      rw [zerosMat_getD_length hk2] at h1
      have h2 : Si.getD k [] = Si.get ⟨k, hk⟩ := by
        rw [getD_getElem hk]
        simp [List.get_eq_getElem]
      rw [← hck, ← h2]
      exact h1
    obtain ⟨tps, htps⟩ := mapE_ok_of_pointwise
      (fun k hk' => (hcols k hk').imp (fun tp h => h.1))
    have htl : tps.length = s.kf_n.folds.length := mapE_ok_length htps
    have hSieq : Si = tps := by
      refine List.ext_get ?_ ?_
      · rw [htl, hlen, hSilen]
      intro k hk1 hk2
      have hkf : k < s.kf_n.folds.length := by rw [hlen, ← hSilen]; exact hk1
      obtain ⟨tp, hspec, hcol⟩ := hcols k hkf
      have hget := mapE_ok_get htps k hkf hk2
      rw [hspec] at hget
      have htpk : tp = tps.get ⟨k, hk2⟩ := Except.ok.inj hget
      simp only [Nat.zero_add] at hcol
      rw [← htpk, ← hcol, getD_getElem hk1]
      simp [List.get_eq_getElem]
    refine ⟨tps, htps, ?_⟩
    intro r hr
    rw [hSte]
    have hslen : r < (sumCols Si s.y.data.length).length := by
      rw [sumCols_length hM]; exact hr
    rw [List.getD_eq_getElem?_getD, List.getElem?_map, List.getElem?_eq_getElem hslen]
    simp only [Option.map_some', Option.getD_some]
    rw [← getD_getElem hslen, sumCols_getD hM hr, hSieq, ← hlen]
  refine ⟨hboost, ?_, ?_⟩
  · intro params nbr St Ste hrun
    exact hboost params nbr St Ste (by rw [← run_xgboost_eq_lgbm]; exact hrun)
  · intro m Str Ste hrun
    obtain ⟨mA, Si, hloop, hSte⟩ := run_other_single_ok_elim hrun
    have hcols := other_loop_Si_cols hloop
    have hcollen := other_loop_Si_collen hloop
    have hSilen : Si.length = s.kf_n.n_folds := by
      have h1 := (other_loop_Si_frame hloop).1
      simpa [zerosMat, KFold.len] using h1
    have hM : ∀ c ∈ Si, c.length = s.X_test.length := by
      intro c hc
      obtain ⟨⟨k, hk⟩, hck⟩ := List.mem_iff_get.mp hc
      have h1 := hcollen k
      have hk2 : k < KFold.len s.kf_n := by rw [KFold.len, ← hSilen]; exact hk
      rw [zerosMat_getD_length hk2] at h1
      have h2 : Si.getD k [] = Si.get ⟨k, hk⟩ := by
        rw [getD_getElem hk]
        simp [List.get_eq_getElem]
      rw [← hck, ← h2]
      exact h1
    obtain ⟨tps, htps⟩ := mapE_ok_of_pointwise
      (fun k hk' => (hcols k hk').imp (fun tp h => h.1))
    have htl : tps.length = s.kf_n.folds.length := mapE_ok_length htps
    have hSieq : Si = tps := by
      refine List.ext_get ?_ ?_
      · rw [htl, hlen, hSilen]
      intro k hk1 hk2
      have hkf : k < s.kf_n.folds.length := by rw [hlen, ← hSilen]; exact hk1
      obtain ⟨tp, hspec, hcol⟩ := hcols k hkf
      have hget := mapE_ok_get htps k hkf hk2
      rw [hspec] at hget
      have htpk : tp = tps.get ⟨k, hk2⟩ := Except.ok.inj hget
      simp only [Nat.zero_add] at hcol
      rw [← htpk, ← hcol, getD_getElem hk1]
      simp [List.get_eq_getElem]
    refine ⟨tps, htps, ?_⟩
    intro r hr
    obtain ⟨hi0, hvl0, hSteEq⟩ := setColE_ok_elim hSte
    rw [hSteEq, colAt_set_self r hi0, matMean1_getD hM hr, hSieq, htl]

/-- Witness for the amended C3 at a concrete two-fold orchestrator whose
partition yields exactly its declared fold count. -/
theorem c3_averaging_law_witness :
    (∀ params nbr St Ste, run_lgbm_stacker egTwoFold params nbr = Except.ok (St, Ste) →
      ∃ tps, mapE (boostFoldTestPred egTwoFold.X_train egTwoFold.X_test egTwoFold.y.data params nbr)
          egTwoFold.kf_n.folds = Except.ok tps ∧
        ∀ r, r < egTwoFold.y.data.length →
          Ste.getD r 0 = (tps.map (fun c => c.getD r 0)).sum / (egTwoFold.kf_n.folds.length : ℚ)) ∧
    (∀ params nbr St Ste, run_xgboost_stacker egTwoFold params nbr = Except.ok (St, Ste) →
      ∃ tps, mapE (boostFoldTestPred egTwoFold.X_train egTwoFold.X_test egTwoFold.y.data params nbr)
          egTwoFold.kf_n.folds = Except.ok tps ∧
        ∀ r, r < egTwoFold.y.data.length →
          Ste.getD r 0 = (tps.map (fun c => c.getD r 0)).sum / (egTwoFold.kf_n.folds.length : ℚ)) ∧
    (∀ m Str Ste, run_other_stackers egTwoFold [m] = Except.ok (Str, Ste) →
      ∃ tps, mapE (foldTestPred egTwoFold.X_train egTwoFold.X_test egTwoFold.y.data m)
          egTwoFold.kf_n.folds = Except.ok tps ∧
        ∀ r, r < egTwoFold.X_test.length →
          colAt Ste 0 r = (tps.map (fun c => c.getD r 0)).sum / (egTwoFold.kf_n.folds.length : ℚ)) :=
  c3_averaging_law egTwoFold (by decide)

/-- C4: the spec scenario. With 10 training rows with arbitrary targets,
4 test rows, the 2-fold partition (validation rows 0-4 then rows 5-9), and
the single mean-predicting base model, the generic stacker returns:
training-output row 0 = mean of targets at rows 5-9, training-output row 5 =
mean of targets at rows 0-4, and every test-output row = the mean of the two
folds' constant predictions. -/
theorem c4_scenario (y0 y1 y2 y3 y4 y5 y6 y7 y8 y9 : ℚ) :
    ∃ Str Ste,
      run_other_stackers (egScenario [y0, y1, y2, y3, y4, y5, y6, y7, y8, y9])
          [meanModel] = Except.ok (Str, Ste) ∧
      colAt Str 0 0 = (y5 + y6 + y7 + y8 + y9) / 5 ∧
      colAt Str 0 5 = (y0 + y1 + y2 + y3 + y4) / 5 ∧
      ∀ r, r < 4 →
        colAt Ste 0 r =
          ((y5 + y6 + y7 + y8 + y9) / 5 + (y0 + y1 + y2 + y3 + y4) / 5) / 2 := by
  refine ⟨[[(y5 + y6 + y7 + y8 + y9) / 5, (y5 + y6 + y7 + y8 + y9) / 5,
           (y5 + y6 + y7 + y8 + y9) / 5, (y5 + y6 + y7 + y8 + y9) / 5,
           (y5 + y6 + y7 + y8 + y9) / 5, (y0 + y1 + y2 + y3 + y4) / 5,
           (y0 + y1 + y2 + y3 + y4) / 5, (y0 + y1 + y2 + y3 + y4) / 5,
           (y0 + y1 + y2 + y3 + y4) / 5, (y0 + y1 + y2 + y3 + y4) / 5]],
         [[((y5 + y6 + y7 + y8 + y9) / 5 + (y0 + y1 + y2 + y3 + y4) / 5) / 2,
           ((y5 + y6 + y7 + y8 + y9) / 5 + (y0 + y1 + y2 + y3 + y4) / 5) / 2,
           ((y5 + y6 + y7 + y8 + y9) / 5 + (y0 + y1 + y2 + y3 + y4) / 5) / 2,
           ((y5 + y6 + y7 + y8 + y9) / 5 + (y0 + y1 + y2 + y3 + y4) / 5) / 2]],
        ?_, by norm_num [colAt], by norm_num [colAt], ?_⟩
  · norm_num [run_other_stackers, run_other_stackers_full, other_model_loop,
      other_fold_loop, other_fold_body, getAtIdx, mapE, setAtIdx, setColAtIdx,
      setColE, zerosMat, sumCols, matMean1, KFold.len, BaseModel.fit,
      BaseModel.predict, BaseModel.predictRow, meanModel, egScenario,
      ka_stacking_generalization, List.set, List.zipWith, List.replicate]
    ring_nf
    norm_num
  · intro r hr
    interval_cases r <;> norm_num [colAt]

/-- Witness for C4 with the concrete targets 0, 1, ..., 9. -/
theorem c4_scenario_witness :
    ∃ Str Ste,
      run_other_stackers (egScenario [0, 1, 2, 3, 4, 5, 6, 7, 8, 9])
          [meanModel] = Except.ok (Str, Ste) ∧
      colAt Str 0 0 = (5 + 6 + 7 + 8 + 9) / 5 ∧
      colAt Str 0 5 = (0 + 1 + 2 + 3 + 4) / 5 ∧
      ∀ r, r < 4 →
        colAt Ste 0 r =
          ((5 + 6 + 7 + 8 + 9) / 5 + (0 + 1 + 2 + 3 + 4) / 5) / 2 :=
  c4_scenario 0 1 2 3 4 5 6 7 8 9

/-- C7: the outputs of every stacking operation are a function of the
orchestrator's stored dataset and fold partition only (not even of the
verbosity flag) and of the deterministic base models and backend supplied,
so two runs over equal data produce identical outputs. -/
theorem c7_determinism (s₁ s₂ : Stacker)
    (h1 : s₁.X_train = s₂.X_train) (h2 : s₁.X_test = s₂.X_test)
    (h3 : s₁.y = s₂.y) (h4 : s₁.kf_n = s₂.kf_n) :
    (∀ base_models, run_other_stackers s₁ base_models = run_other_stackers s₂ base_models) ∧
    (∀ params nbr, run_lgbm_stacker s₁ params nbr = run_lgbm_stacker s₂ params nbr) ∧
    (∀ params nbr, run_xgboost_stacker s₁ params nbr = run_xgboost_stacker s₂ params nbr) := by
  refine ⟨?_, ?_, ?_⟩
  · intro base_models
    unfold run_other_stackers run_other_stackers_full
    rw [h1, h2, h3, h4]
  · intro params nbr
    unfold run_lgbm_stacker
    rw [h1, h2, h3, h4]
  · intro params nbr
    unfold run_xgboost_stacker
    rw [h1, h2, h3, h4]

/-- Witness for C7: two orchestrators over the same data that differ only in
the verbosity flag produce identical outputs. -/
theorem c7_determinism_witness :
    (∀ base_models, run_other_stackers egTwoFold base_models =
      run_other_stackers (ka_stacking_generalization [[0], [1]] [[0]]
        ⟨Dtype.float, [0, 0]⟩ ⟨[([0], [1]), ([1], [0])], 2⟩ 0) base_models) ∧
    (∀ params nbr, run_lgbm_stacker egTwoFold params nbr =
      run_lgbm_stacker (ka_stacking_generalization [[0], [1]] [[0]]
        ⟨Dtype.float, [0, 0]⟩ ⟨[([0], [1]), ([1], [0])], 2⟩ 0) params nbr) ∧
    (∀ params nbr, run_xgboost_stacker egTwoFold params nbr =
      run_xgboost_stacker (ka_stacking_generalization [[0], [1]] [[0]]
        ⟨Dtype.float, [0, 0]⟩ ⟨[([0], [1]), ([1], [0])], 2⟩ 0) params nbr) :=
  c7_determinism _ _ (by decide) (by decide) (by decide) (by decide)

/-- C8: translated in state-passing style, none of the three method bodies
assigns to a field of `self`, so the post-call orchestrator object equals
the object built at construction: the stored training features, test
features, target array and fold partition are unchanged by every stacking
operation. -/
theorem c8_state_unchanged (X_train X_test : List Row) (y : NArr)
    (kf_n : KFold) (verbose : ℕ) :
    (∀ params nbr,
      (run_lgbm_stacker_method
        (ka_stacking_generalization X_train X_test y kf_n verbose) params nbr).2 =
        ka_stacking_generalization X_train X_test y kf_n verbose) ∧
    (∀ params nbr,
      (run_xgboost_stacker_method
        (ka_stacking_generalization X_train X_test y kf_n verbose) params nbr).2 =
        ka_stacking_generalization X_train X_test y kf_n verbose) ∧
    (∀ base_models,
      (run_other_stackers_method
        (ka_stacking_generalization X_train X_test y kf_n verbose) base_models).2 =
        ka_stacking_generalization X_train X_test y kf_n verbose) :=
  ⟨fun _ _ => rfl, fun _ _ => rfl, fun _ => rfl⟩

/-- C10: a completed `run_other_stackers` call leaves every caller-supplied
base model mutated: model `k` of the input sequence ends in exactly the
fitted state produced by refitting it on the final fold's training slice
(`foldModel` of the partition's last (train, validation) pair), with no
per-fold copy or reset. -/
theorem c10_base_models_mutated (s : Stacker) (lastTv : List ℕ × List ℕ)
    (hlast : s.kf_n.folds.getLast? = some lastTv) :
    ∀ base_models out, run_other_stackers_full s base_models = Except.ok out →
      out.1.length = base_models.length ∧
      ∀ k, (hk : k < base_models.length) → (hk2 : k < out.1.length) →
        ∃ mf, foldModel s.X_train s.y.data (base_models.get ⟨k, hk⟩) lastTv =
            Except.ok mf ∧
          out.1.get ⟨k, hk2⟩ = mf := by
  intro base_models out h
  unfold run_other_stackers_full at h
  exact other_model_loop_models h hlast

/-- Witness for C10 at the concrete two-fold orchestrator (last fold
`([1], [0])`) with a single constant-3 base model: the completed call leaves
the model refit on the last fold's training slice `([[1]], [0])`. -/
theorem c10_base_models_mutated_witness :
    ([(⟨(constModel 3).fitF, (constModel 3).predictF,
        some ([[1]], [0])⟩ : BaseModel)] : List BaseModel).length =
      [constModel 3].length ∧
    ∃ mf, foldModel egTwoFold.X_train egTwoFold.y.data (constModel 3) ([1], [0]) =
        Except.ok mf ∧
      (⟨(constModel 3).fitF, (constModel 3).predictF,
        some ([[1]], [0])⟩ : BaseModel) = mf :=
  have h := c10_base_models_mutated egTwoFold ([1], [0]) (by decide) [constModel 3]
    ([(⟨(constModel 3).fitF, (constModel 3).predictF,
        some ([[1]], [0])⟩ : BaseModel)], [[3, 3]], [[3]])
    (by norm_num [run_other_stackers_full, other_model_loop, other_fold_loop,
      other_fold_body, getAtIdx, mapE, setAtIdx, setColAtIdx, setColE, zerosMat,
      sumCols, matMean1, KFold.len, BaseModel.fit, BaseModel.predict,
      BaseModel.predictRow, constModel, egTwoFold, ka_stacking_generalization,
      List.set, List.zipWith])
  ⟨h.1, h.2 0 (by decide) (by decide)⟩

/-- C6: if, after some prefix of folds completes cleanly, the next fold's
body (its fit or predict call) raises an error `e`, then the stacking
operation returns exactly `Except.error e` — the error is neither wrapped,
translated nor retried, and no partial result reaches the caller. Stated for
the generic stacker with one base model and for both boosting stackers. -/
theorem c6_error_propagation (s : Stacker) (pre : List (List ℕ × List ℕ))
    (tv : List ℕ × List ℕ) (post : List (List ℕ × List ℕ))
    (hfolds : s.kf_n.folds = pre ++ tv :: post) (e : PyErr) :
    (∀ m m1 St1 Si1,
      other_fold_loop s.X_train s.X_test s.y.data 0 0 pre m
          (zerosMat s.X_train.length 1) (zerosMat s.X_test.length s.kf_n.len) =
        Except.ok (m1, St1, Si1) →
      other_fold_body s.X_train s.X_test s.y.data 0 pre.length tv m1 St1 Si1 =
        Except.error e →
      run_other_stackers s [m] = Except.error e) ∧
    (∀ params nbr St1 Si1,
      boost_fold_loop s.X_train s.X_test s.y.data params nbr 0 pre
          (zeros_like s.y) (zerosMat s.y.data.length s.kf_n.n_folds) =
        Except.ok (St1, Si1) →
      boost_fold_body s.X_train s.X_test s.y.data params nbr pre.length tv St1 Si1 =
        Except.error e →
      run_lgbm_stacker s params nbr = Except.error e ∧
      run_xgboost_stacker s params nbr = Except.error e) := by
  constructor
  · intro m m1 St1 Si1 hpre hbody
    have hloop : other_fold_loop s.X_train s.X_test s.y.data 0 0 s.kf_n.folds m
        (zerosMat s.X_train.length 1) (zerosMat s.X_test.length s.kf_n.len) =
        Except.error e := by
      rw [hfolds, other_loop_append, hpre]
      simp only [other_fold_loop, Nat.zero_add, hbody]
    unfold run_other_stackers run_other_stackers_full other_model_loop
    simp only [List.length_cons, List.length_nil, hloop]
  · intro params nbr St1 Si1 hpre hbody
    have hloop : boost_fold_loop s.X_train s.X_test s.y.data params nbr 0
        s.kf_n.folds (zeros_like s.y) (zerosMat s.y.data.length s.kf_n.n_folds) =
        Except.error e := by
      rw [hfolds, boost_loop_append, hpre]
      simp only [boost_fold_loop, Nat.zero_add, hbody]
    constructor
    · unfold run_lgbm_stacker
      simp only [hloop]
    · unfold run_xgboost_stacker
      simp only [hloop]

/-- Witness for C6: on the two-fold orchestrator `egErr`, a model (and a
boosting backend) that raises `user 7` on the second fold's training slice
makes each operation return exactly `Except.error (user 7)`. -/
theorem c6_error_propagation_witness :
    ((∀ m m1 St1 Si1,
      other_fold_loop egErr.X_train egErr.X_test egErr.y.data 0 0 [([0], [1])] m
          (zerosMat egErr.X_train.length 1) (zerosMat egErr.X_test.length egErr.kf_n.len) =
        Except.ok (m1, St1, Si1) →
      other_fold_body egErr.X_train egErr.X_test egErr.y.data 0
          (List.length [([0], [1])]) ([1], [0]) m1 St1 Si1 =
        Except.error (PyErr.user 7) →
      run_other_stackers egErr [m] = Except.error (PyErr.user 7)) ∧
    (∀ params nbr St1 Si1,
      boost_fold_loop egErr.X_train egErr.X_test egErr.y.data params nbr 0 [([0], [1])]
          (zeros_like egErr.y) (zerosMat egErr.y.data.length egErr.kf_n.n_folds) =
        Except.ok (St1, Si1) →
      boost_fold_body egErr.X_train egErr.X_test egErr.y.data params nbr
          (List.length [([0], [1])]) ([1], [0]) St1 Si1 =
        Except.error (PyErr.user 7) →
      run_lgbm_stacker egErr params nbr = Except.error (PyErr.user 7) ∧
      run_xgboost_stacker egErr params nbr = Except.error (PyErr.user 7))) ∧
    run_other_stackers egErr [errFitModel] = Except.error (PyErr.user 7) ∧
    run_lgbm_stacker egErr errBoost 1 = Except.error (PyErr.user 7) ∧
    run_xgboost_stacker egErr errBoost 1 = Except.error (PyErr.user 7) :=
  have h := c6_error_propagation egErr [([0], [1])] ([1], [0]) [] (by decide) (PyErr.user 7)
  ⟨h,
   h.1 errFitModel ⟨errFitModel.fitF, errFitModel.predictF, some ([[4]], [0])⟩
     [[0, 0]] [[0, 0], [0, 0]] (by rfl) (by rfl),
   (h.2 errBoost 1 ⟨Dtype.float, [0, 0]⟩ [[0, 0], [0, 0]] (by rfl) (by rfl)).1,
   (h.2 errBoost 1 ⟨Dtype.float, [0, 0]⟩ [[0, 0], [0, 0]] (by rfl) (by rfl)).2⟩

end KAStacking
